import Mathlib

/-!
# Shallow embedding of the flipnote.js decode core

This file embeds the decode core of the flipnote.js repository
(`src/parsers/KwzParser.ts`, the compiled `dist/flipnote.es.js` containing
`PpmParser`, `DataStream`, the audio utilities, and `parseSource`) as
executable Lean definitions, and proves or refutes the frozen claims about
them.

Conventions of the embedding:
* JS `ArrayBuffer`s / `Uint8Array`s are `List Nat` of byte values.
* JS numbers in integer positions are `Nat`/`Int`; JS numbers used as
  (possibly fractional) rates or durations are `Rat` (exact arithmetic
  standing in for IEEE doubles).
* `DataView` reads throw on out-of-bounds access; fallible reads return
  `Option`.
* JS typed-array stores out of bounds are silently dropped; `List.set`
  has exactly this behaviour, which the embedding relies on.
* Pixel buffers are modelled as total functions `Nat → Nat` (index ↦ byte
  value); a `Uint8Array.set` of an 8-pixel line becomes a functional
  override of the corresponding index range.
-/

/-- JS `clamp(n, l, h)` from the audio utilities in `dist/flipnote.es.js`. -/
def jsClamp (n l h : Int) : Int :=
  if n < l then l else if n > h then h else n

/-- Byte buffers: the underlying `ArrayBuffer` as a list of byte values. -/
abbrev Bytes := List Nat

/-- `DataView.getUint8` at a `Nat` offset: fails out of bounds. -/
def readU8 (B : Bytes) (p : Nat) : Option Nat :=
  B.get? p

/-- `DataView.getUint16(p, littleEndian := true)`. -/
def readU16 (B : Bytes) (p : Nat) : Option Nat := do
  let a ← B.get? p
  let b ← B.get? (p + 1)
  pure (a + 256 * b)

/-- `DataView.getUint16(p, littleEndian := false)` (big-endian). -/
def readU16BE (B : Bytes) (p : Nat) : Option Nat := do
  let a ← B.get? p
  let b ← B.get? (p + 1)
  pure (256 * a + b)

/-- `DataView.getUint32(p, littleEndian := true)`. -/
def readU32 (B : Bytes) (p : Nat) : Option Nat := do
  let a ← B.get? p
  let b ← B.get? (p + 1)
  let c ← B.get? (p + 2)
  let d ← B.get? (p + 3)
  pure (a + 256 * b + 65536 * c + 16777216 * d)

/-- `DataView.getUint32(p, littleEndian := false)` (big-endian). -/
def readU32BE (B : Bytes) (p : Nat) : Option Nat := do
  let a ← B.get? p
  let b ← B.get? (p + 1)
  let c ← B.get? (p + 2)
  let d ← B.get? (p + 3)
  pure (16777216 * a + 65536 * b + 256 * c + d)

/-- Two's-complement reinterpretation of a byte as a signed 8-bit value. -/
def i8OfByte (v : Nat) : Int :=
  if v < 128 then (v : Int) else (v : Int) - 256

/-- `DataView.getInt8`. -/
def readI8 (B : Bytes) (p : Nat) : Option Int :=
  (readU8 B p).map i8OfByte

/-- Two's-complement reinterpretation of a 16-bit pattern as signed. -/
def i16OfNat (v : Nat) : Int :=
  if v < 32768 then (v : Int) else (v : Int) - 65536

/-- `DataView.getInt16(p, littleEndian := true)`. -/
def readI16 (B : Bytes) (p : Nat) : Option Int :=
  (readU16 B p).map i16OfNat

/-- Two's-complement reinterpretation of a 32-bit pattern as signed. -/
def i32OfNat (v : Nat) : Int :=
  if v < 2147483648 then (v : Int) else (v : Int) - 4294967296

/-- `DataView.getInt32(p, littleEndian := true)`. -/
def readI32 (B : Bytes) (p : Nat) : Option Int :=
  (readU32 B p).map i32OfNat

/-- JS `ToInt16` conversion applied by an `Int16Array` store (wraps mod 2^16). -/
def jsToInt16 (x : Int) : Int :=
  let m := x % 65536
  if m ≥ 32768 then m - 65536 else m

/-- JS truncation toward zero (`ToIntegerOrInfinity`) of an exact rational. -/
def jsTrunc (q : Rat) : Int :=
  if q < 0 then -(Int.floor (-q)) else Int.floor q

/-! ## ADPCM audio codec (`dist/flipnote.es.js` audio utils) -/

/-- `ADPCM_INDEX_TABLE_2BIT`. -/
def ADPCM_INDEX_TABLE_2BIT : List Int := [-1, 2, -1, 2]

/-- `ADPCM_INDEX_TABLE_4BIT`. -/
def ADPCM_INDEX_TABLE_4BIT : List Int :=
  [-1, -1, -1, -1, 2, 4, 6, 8, -1, -1, -1, -1, 2, 4, 6, 8]

/-- `ADPCM_STEP_TABLE` (89 step sizes plus a trailing 0 sentinel). -/
def ADPCM_STEP_TABLE : List Int :=
  [7, 8, 9, 10, 11, 12, 13, 14, 16, 17,
   19, 21, 23, 25, 28, 31, 34, 37, 41, 45,
   50, 55, 60, 66, 73, 80, 88, 97, 107, 118,
   130, 143, 157, 173, 190, 209, 230, 253, 279, 307,
   337, 371, 408, 449, 494, 544, 598, 658, 724, 796,
   876, 963, 1060, 1166, 1282, 1411, 1552, 1707, 1878, 2066,
   2272, 2499, 2749, 3024, 3327, 3660, 4026, 4428, 4871, 5358,
   5894, 6484, 7132, 7845, 8630, 9493, 10442, 11487, 12635, 13899,
   15289, 16818, 18500, 20350, 22385, 24623, 27086, 29794, 32767, 0]

/-- Running ADPCM decoder state: predictor and step-table index. -/
structure AdpcmSt where
  predictor : Int
  stepIndex : Int
deriving Repr, DecidableEq

/-- One 4-bit sample step of `PpmParser.decodeAudioTrack`
(`dist/flipnote.es.js`): returns the emitted sample and the new state.
JS `step >> k` on the nonnegative table entries is integer division. -/
def ppmProcessNibble (sample : Nat) (st : AdpcmSt) : Int × AdpcmSt :=
  let step := ADPCM_STEP_TABLE.getD st.stepIndex.toNat 0
  let diff := step / 8
  let diff := if sample &&& 1 ≠ 0 then diff + step / 4 else diff
  let diff := if sample &&& 2 ≠ 0 then diff + step / 2 else diff
  let diff := if sample &&& 4 ≠ 0 then diff + step else diff
  let diff := if sample &&& 8 ≠ 0 then -diff else diff
  let predictor := jsClamp (st.predictor + diff) (-32768) 32767
  let stepIndex := jsClamp (st.stepIndex + ADPCM_INDEX_TABLE_4BIT.getD sample 0) 0 88
  (predictor, ⟨predictor, stepIndex⟩)

/-- One loop step of `PpmParser.decodeAudioTrack`: each byte yields its
low nibble then its high nibble as two emitted samples. -/
def ppmAudioStep (acc : List Int × AdpcmSt) (b : Nat) : List Int × AdpcmSt :=
  let r1 := ppmProcessNibble (b &&& 0xF) acc.2
  let r2 := ppmProcessNibble (b >>> 4) r1.2
  (acc.1 ++ [r1.1, r2.1], r2.2)

/-- `PpmParser.decodeAudioTrack` body over the raw track bytes. -/
def ppmDecodeAudioTrackCore (src : Bytes) : List Int :=
  (src.foldl ppmAudioStep ([], ⟨0, 0⟩)).1

/-- One 2-bit sample step of `KwzParser.decodeAudioTrack`
(`src/parsers/KwzParser.ts`). The emitted sample is the 12-bit-clamped
predictor scaled by 16. -/
def kwzProcess2Bit (sample : Nat) (st : AdpcmSt) : Int × AdpcmSt :=
  let step := ADPCM_STEP_TABLE.getD st.stepIndex.toNat 0
  let diff := step / 8
  let diff := if sample &&& 1 ≠ 0 then diff + step else diff
  let diff := if sample &&& 2 ≠ 0 then -diff else diff
  let predictor := st.predictor + diff
  let stepIndex := st.stepIndex + ADPCM_INDEX_TABLE_2BIT.getD sample 0
  let stepIndex := jsClamp stepIndex 0 79
  let predictor := jsClamp predictor (-2048) 2047
  (predictor * 16, ⟨predictor, stepIndex⟩)

/-- One 4-bit sample step of `KwzParser.decodeAudioTrack`. -/
def kwzProcess4Bit (sample : Nat) (st : AdpcmSt) : Int × AdpcmSt :=
  let step := ADPCM_STEP_TABLE.getD st.stepIndex.toNat 0
  let diff := step / 8
  let diff := if sample &&& 1 ≠ 0 then diff + step / 4 else diff
  let diff := if sample &&& 2 ≠ 0 then diff + step / 2 else diff
  let diff := if sample &&& 4 ≠ 0 then diff + step else diff
  let diff := if sample &&& 8 ≠ 0 then -diff else diff
  let predictor := st.predictor + diff
  let stepIndex := st.stepIndex + ADPCM_INDEX_TABLE_4BIT.getD sample 0
  let stepIndex := jsClamp stepIndex 0 79
  let predictor := jsClamp predictor (-2048) 2047
  (predictor * 16, ⟨predictor, stepIndex⟩)

/-- The inner `while (currBit < 8)` loop of `KwzParser.decodeAudioTrack`:
consumes the current byte two or four bits at a time depending on the
current step index and bit position. -/
def kwzByteLoop (currByte : Nat) (currBit : Nat) (st : AdpcmSt)
    (out : List Int) : List Int × AdpcmSt :=
  if currBit < 8 then
    if st.stepIndex < 18 ∨ currBit > 4 then
      let r := kwzProcess2Bit (currByte &&& 0x3) st
      kwzByteLoop (currByte >>> 2) (currBit + 2) r.2 (out ++ [r.1])
    else
      let r := kwzProcess4Bit (currByte &&& 0xF) st
      kwzByteLoop (currByte >>> 4) (currBit + 4) r.2 (out ++ [r.1])
  else (out, st)
termination_by 8 - currBit

/-- KWZ parser settings relevant to decoding (`KwzParserSettings`). -/
structure KwzSettings where
  quickMeta : Bool
  dsiLibraryNote : Bool
  cleanerAudio : Bool
deriving Repr, DecidableEq

/-- `KwzParser.decodeAudioTrack` body over the raw track bytes. The output
`Int16Array` is over-allocated to `16364 * 60` entries and then truncated;
writes beyond that capacity are dropped by the typed array, so the result
is the emitted list truncated to that capacity. -/
def kwzDecodeAudioTrackCore (s : KwzSettings) (src : Bytes) : List Int :=
  let initStepIndex : Int := if s.cleanerAudio ∧ ¬ s.dsiLibraryNote then 0 else 40
  ((src.foldl (fun acc b => kwzByteLoop b 0 acc.2 acc.1)
    ([], ⟨0, initStepIndex⟩)).1).take (16364 * 60)

/-! ## PCM utilities (`dist/flipnote.es.js`) -/

/-- `pcmGetSample(src, srcSize, srcPtr)`: zero outside bounds. -/
def pcmGetSample (src : List Int) (srcSize : Nat) (srcPtr : Int) : Int :=
  if srcPtr < 0 ∨ srcPtr ≥ (srcSize : Int) then 0 else src.getD srcPtr.toNat 0

/-- `pcmResampleNearestNeighbour(src, srcFreq, dstFreq)`. The destination
length `srcDuration * dstFreq` passes through `ToIndex` (truncation) when
allocating the `Int16Array`; each store applies `ToInt16`. -/
def pcmResampleNearestNeighbour (src : List Int) (srcFreq dstFreq : Rat) :
    List Int :=
  let srcLength := src.length
  let srcDuration : Rat := (srcLength : Rat) / srcFreq
  let dstLength : Rat := srcDuration * dstFreq
  let len : Nat := (jsTrunc dstLength).toNat
  let adjFreq : Rat := srcFreq / dstFreq
  (List.range len).map
    (fun (dstPtr : Nat) =>
      jsToInt16 (pcmGetSample src srcLength (Int.floor ((dstPtr : Rat) * adjFreq))))

/-- `pcmResampleLinear(src, srcFreq, dstFreq)` (used by the KWZ parser). -/
def pcmResampleLinear (src : List Int) (srcFreq dstFreq : Rat) : List Int :=
  let srcLength := src.length
  let srcDuration : Rat := (srcLength : Rat) / srcFreq
  let dstLength : Rat := srcDuration * dstFreq
  let len : Nat := (jsTrunc dstLength).toNat
  let adjFreq : Rat := srcFreq / dstFreq
  (List.range len).map
    (fun (dstPtr : Nat) =>
      let adj : Rat := (dstPtr : Rat) * adjFreq
      let srcPtr : Int := Int.floor adj
      let weight : Rat := adj - Int.floor adj
      jsToInt16 (jsTrunc ((1 - weight) * (pcmGetSample src srcLength srcPtr : Rat)
        + weight * (pcmGetSample src srcLength (srcPtr + 1) : Rat))))

/-- `pcmGetClippingRatio(src)`: fraction of samples at the 16-bit clipping
bounds, as an exact rational (the JS float division is exact at the values
the claims are about). -/
def pcmGetClippingRatio (src : List Int) : Rat :=
  let numSamples := src.length
  let numClippedSamples := src.countP (fun s => decide (s ≤ -32768 ∨ s ≥ 32767))
  (numClippedSamples : Rat) / (numSamples : Rat)

/-- The loop of `KwzParser.pcmAudioMix(src, dst, dstOffset)`, also
recording every destination index at which a store is attempted. A JS
typed-array store outside bounds is silently dropped, which is exactly the
behaviour of `List.set`; a negative index never stores. -/
def pcmAudioMixGo (dstSize : Nat) (dstOffset : Int) :
    List Int → Nat → List Int → List Int × List Int
  | [], _, dst => (dst, [])
  | s :: rest, n, dst =>
    if dstOffset + (n : Int) > (dstSize : Int) then (dst, [])
    else
      let idx := dstOffset + (n : Int)
      let samp := dst.getD idx.toNat 0 + s
      let dst' := if 0 ≤ idx then dst.set idx.toNat (jsClamp samp (-32768) 32767) else dst
      let r := pcmAudioMixGo dstSize dstOffset rest (n + 1) dst'
      (r.1, idx :: r.2)

/-- `KwzParser.pcmAudioMix(src, dst, dstOffset)`: the mixed destination. -/
def pcmAudioMix (src dst : List Int) (dstOffset : Int) : List Int :=
  (pcmAudioMixGo dst.length dstOffset src 0 dst).1

/-- The destination indices at which `pcmAudioMix`'s loop attempts stores. -/
def pcmAudioMixWriteIdxs (src dst : List Int) (dstOffset : Int) : List Int :=
  (pcmAudioMixGo dst.length dstOffset src 0 dst).2

/-! ## Byte cursor (`DataStream` in `dist/flipnote.es.js`) -/

/-- Seek origins of `DataStream.seek` (`whence` values 0/1/2). -/
inductive SeekMode where
  | begin
  | current
  | seekEnd
deriving Repr, DecidableEq

/-- A `DataStream`: an immutable byte buffer and a mutable pointer. The
pointer is an `Int` because `seek` performs no bounds checking at all. -/
structure DataStream where
  bytes : Bytes
  pointer : Int
deriving Repr, DecidableEq

/-- `new DataStream(arrayBuffer)`. -/
def dsInit (B : Bytes) : DataStream := ⟨B, 0⟩

/-- `DataStream.seek(offset, whence)`: no clamping, no bounds check. -/
def dsSeek (s : DataStream) (offset : Int) (whence : SeekMode) : DataStream :=
  match whence with
  | SeekMode.seekEnd => { s with pointer := (s.bytes.length : Int) + offset }
  | SeekMode.current => { s with pointer := s.pointer + offset }
  | SeekMode.begin => { s with pointer := offset }

/-- Whether a `DataStream`'s pointer lies inside `[0, byteLength]`. -/
def dsWithinBounds (s : DataStream) : Prop :=
  0 ≤ s.pointer ∧ s.pointer ≤ (s.bytes.length : Int)

instance (s : DataStream) : Decidable (dsWithinBounds s) := by
  unfold dsWithinBounds; infer_instance

/-- A width-`w` `DataView` read at the stream pointer: the underlying
`DataView` getter throws unless `0 ≤ pointer` and `pointer + w ≤ length`;
on success the pointer advances by exactly `w`. -/
def dsReadRaw (w : Nat) (s : DataStream) : Option (Bytes × DataStream) :=
  if 0 ≤ s.pointer ∧ s.pointer + (w : Int) ≤ (s.bytes.length : Int) then
    some ((List.range w).map (fun k => s.bytes.getD (s.pointer.toNat + k) 0),
      { s with pointer := s.pointer + (w : Int) })
  else none

/-- `DataStream.readUint8`. -/
def dsReadUint8 (s : DataStream) : Option (Nat × DataStream) := do
  let (_, s') ← dsReadRaw 1 s
  let v ← readU8 s.bytes s.pointer.toNat
  pure (v, s')

/-- `DataStream.readInt8`. -/
def dsReadInt8 (s : DataStream) : Option (Int × DataStream) := do
  let (_, s') ← dsReadRaw 1 s
  let v ← readI8 s.bytes s.pointer.toNat
  pure (v, s')

/-- `DataStream.readUint16` (little-endian default). -/
def dsReadUint16 (s : DataStream) : Option (Nat × DataStream) := do
  let (_, s') ← dsReadRaw 2 s
  let v ← readU16 s.bytes s.pointer.toNat
  pure (v, s')

/-- `DataStream.readInt16` (little-endian default). -/
def dsReadInt16 (s : DataStream) : Option (Int × DataStream) := do
  let (_, s') ← dsReadRaw 2 s
  let v ← readI16 s.bytes s.pointer.toNat
  pure (v, s')

/-- `DataStream.readUint32` (little-endian default). -/
def dsReadUint32 (s : DataStream) : Option (Nat × DataStream) := do
  let (_, s') ← dsReadRaw 4 s
  let v ← readU32 s.bytes s.pointer.toNat
  pure (v, s')

/-- `DataStream.readInt32` (little-endian default). -/
def dsReadInt32 (s : DataStream) : Option (Int × DataStream) := do
  let (_, s') ← dsReadRaw 4 s
  let v ← readI32 s.bytes s.pointer.toNat
  pure (v, s')

/-- `DataStream.readBytes(count)`. -/
def dsReadBytes (count : Nat) (s : DataStream) : Option (Bytes × DataStream) :=
  dsReadRaw count s

/-! ## Bit cursor (`KwzParser.readBits`) -/

/-- `BITMASKS`: a 16-entry `Uint16Array` of masks `(1 <<< i) - 1`. Reading
`BITMASKS[16]` yields JS `undefined`, and `x & undefined` is `0`. -/
def BITMASKS (i : Nat) : Nat :=
  if i < 16 then 2 ^ i - 1 else 0

/-- The KWZ bit-cursor state: byte pointer into the buffer, the bit
deficit counter `bitIndex` and the accumulator `bitValue`. -/
structure BitSt where
  p : Nat
  bitIndex : Int
  bitValue : Nat
deriving Repr, DecidableEq

/-- The bit-cursor reset performed before each layer decode
(`this.bitIndex = 16; this.bitValue = 0`), positioned at byte `p`. -/
def bitReset (p : Nat) : BitSt := ⟨p, 16, 0⟩

/-- `KwzParser.readBits(num)`. Refills at most one little-endian 16-bit
word from the byte cursor; fails if the refill read is out of bounds. The
refill shift `16 - bitIndex` is always within `[0, 15]` in reachable
states, so plain `Nat` bitwise operations model the JS 32-bit ones. -/
def kwzReadBits (B : Bytes) (num : Nat) (st : BitSt) : Option (Nat × BitSt) := do
  let st ←
    if st.bitIndex + (num : Int) > 16 then do
      let nextBits ← readU16 B st.p
      pure (BitSt.mk (st.p + 2)
        (st.bitIndex - 16)
        (st.bitValue ||| (nextBits <<< (16 - st.bitIndex).toNat)))
    else pure st
  let result := st.bitValue &&& BITMASKS num
  pure (result, ⟨st.p, st.bitIndex + (num : Int), st.bitValue >>> num⟩)

/-- 16-bit little-endian word `k` of the stream starting at byte `s0`. -/
def wordAt (B : Bytes) (s0 k : Nat) : Nat :=
  B.getD (s0 + 2 * k) 0 + 256 * B.getD (s0 + 2 * k + 1) 0

/-- Value of the first `w` stream words, word `k` weighted by `2 ^ (16 k)`. -/
def wordsVal (B : Bytes) (s0 : Nat) : Nat → Nat
  | 0 => 0
  | w + 1 => wordsVal B s0 w + wordAt B s0 w * 2 ^ (16 * w)

/-- The value of stream bits `[c, c + n)` read LSB-first within each
little-endian 16-bit word, words in file order: the mathematical meaning
of "the next `n` bits" used to state the bit-cursor claims. -/
def nextBitsVal (B : Bytes) (s0 c n : Nat) : Nat :=
  wordsVal B s0 ((c + n + 15) / 16) / 2 ^ c % 2 ^ n

/-- Run a sequence of `readBits` calls, collecting the results. -/
def kwzRunReads (B : Bytes) : List Nat → BitSt → Option (List Nat × BitSt)
  | [], st => some ([], st)
  | n :: ns, st => do
    let (v, st') ← kwzReadBits B n st
    let (vs, st'') ← kwzRunReads B ns st'
    pure (v :: vs, st'')

/-! ## PPM parser (`PpmParser` in `dist/flipnote.es.js`) -/

/-- `FlipnoteAudioTrack` identifiers. -/
inductive FlipnoteAudioTrack where
  | BGM
  | SE1
  | SE2
  | SE3
  | SE4
deriving Repr, DecidableEq

/-- `PPM_FRAMERATES`, indexed by the in-app frame speed. -/
def PPM_FRAMERATES : List Rat := [1/2, 1/2, 1, 2, 4, 6, 12, 20, 30]

/-- `KWZ_FRAMERATES`, indexed by the in-app frame speed. -/
def KWZ_FRAMERATES : List Rat := [1/5, 1/2, 1, 2, 4, 6, 8, 12, 20, 24, 30]

/-- `timeGetNoteDuration(frameCount, framerate)` in exact arithmetic. -/
def timeGetNoteDuration (frameCount : Nat) (framerate : Rat) : Rat :=
  (((frameCount : Rat) * 100) * (1 / framerate)) / 100

/-- A constructed `PpmParser` instance: the fields that the decode methods
read. The layer buffers themselves are decoder *state*, kept separately in
`PpmSt`. -/
structure PpmParsed where
  bytes : Bytes
  frameDataLength : Nat
  soundDataLength : Nat
  frameCount : Nat
  version : Nat
  frameOffsets : List Nat
  frameSpeed : Int
  bgmSpeed : Int
  framerate : Rat
  bgmrate : Rat
  duration : Rat
  soundMeta : FlipnoteAudioTrack → Option (Nat × Nat)

/-- `DataStream.readWideChars(count)` as used by `PpmParser.decodeMeta`:
a `Uint16Array` view requires 2-byte alignment and bounds; the value is
the code-unit list up to the first zero. -/
def readWideCharsP (B : Bytes) (p count : Nat) : Option (List Nat) :=
  if p % 2 = 0 ∧ p + 2 * count ≤ B.length then
    some (((List.range count).map
      (fun k => B.getD (p + 2 * k) 0 + 256 * B.getD (p + 2 * k + 1) 0)).takeWhile
        (fun c => c ≠ 0))
  else none

/-- `DataStream.readBytes(count)` at a plain offset (bounds-checked
`Uint8Array` view). -/
def readBytesP (B : Bytes) (p count : Nat) : Option (List Nat) :=
  if p + count ≤ B.length then
    some ((List.range count).map (fun k => B.getD (p + k) 0))
  else none

/-- Discard a read's value, keeping only its success or failure. -/
def chk {α : Type} (o : Option α) : Option Unit :=
  o.map (fun _ => ())

/-- Run a list of value-discarding reads in order, failing on the first
failure (used for metadata reads whose values feed no decode path). -/
def seqChecks : List (Option Unit) → Option Unit
  | [] => some ()
  | o :: os => o.bind (fun _ => seqChecks os)

/-- `PpmParser.decodeHeader`. -/
def ppmDecodeHeader (B : Bytes) : Option (Nat × Nat × Nat × Nat) := do
  if 16 < B.length then
    do
      let frameDataLength ← readU32 B 4
      let soundDataLength ← readU32 B 8
      let storedCount ← readU16 B 12
      let version ← readU16 B 14
      pure (frameDataLength, soundDataLength, storedCount + 1, version)
  else none

/-- `PpmParser.decodeMeta`: a fixed-offset sequence of reads; the decoded
values do not feed the decode paths the claims are about, but the reads'
bounds and alignment checks must succeed for construction to succeed. -/
def ppmDecodeMeta (B : Bytes) : Option Unit :=
  if 0x06A8 < B.length then
    seqChecks
      [chk (readU16 B 0x10),          -- lock
       chk (readI16 B 0x12),          -- thumbIndex
       chk (readWideCharsP B 0x14 11), -- rootAuthorName
       chk (readWideCharsP B 0x2A 11), -- parentAuthorName
       chk (readWideCharsP B 0x40 11), -- currentAuthorName
       chk (readBytesP B 0x56 8),     -- parentAuthorId
       chk (readBytesP B 0x5E 8),     -- currentAuthorId
       chk (readBytesP B 0x66 18),    -- parentFilename
       chk (readBytesP B 0x78 18),    -- currentFilename
       chk (readBytesP B 0x8A 8),     -- rootAuthorId
       chk (readI32 B 0x9A),          -- timestamp
       chk (readU16 B 0x6A6)]         -- flags
  else none

/-- The frame-offset-reading loop of `PpmParser.decodeAnimationHeader`:
each relative offset is rebased and bounds-asserted. -/
def ppmFrameOffsetLoop (B : Bytes) (otl : Nat) : Nat → Nat → Option (List Nat)
  | _, 0 => some []
  | p, k + 1 => do
    let raw ← readU32 B p
    let ptr := 0x06A8 + otl + raw
    if ptr < B.length then
      do
        let rest ← ppmFrameOffsetLoop B otl (p + 4) k
        pure (ptr :: rest)
    else none

/-- `PpmParser.decodeAnimationHeader`. The JS offset count is the float
`offsetTableLength / 4`: the loop then runs once more on a fractional
count, performing a read and a bounds assert whose array store is dropped. -/
def ppmDecodeAnimationHeader (B : Bytes) (frameCount : Nat) : Option (List Nat) := do
  let otl ← readU16 B 0x06A0
  if otl ≤ 4 * frameCount then
    do
      let offs ← ppmFrameOffsetLoop B otl 0x06A8 (otl / 4)
      if otl % 4 ≠ 0 then
        do
          let raw ← readU32 B (0x06A8 + 4 * (otl / 4))
          if 0x06A8 + otl + raw < B.length then pure offs else none
      else pure offs
  else none

/-- `PpmParser.decodeSoundHeader`: track lengths, speeds, framerates and
the chained sound-track pointer map. -/
def ppmDecodeSoundHeader (B : Bytes) (frameDataLength frameCount : Nat) :
    Option (Int × Int × Rat × Rat × Rat × (FlipnoteAudioTrack → Option (Nat × Nat))) := do
  let ptr0 := 0x06A0 + frameDataLength + frameCount
  if ptr0 < B.length then
    do
      let ptr := if ptr0 % 4 ≠ 0 then ptr0 + (4 - ptr0 % 4) else ptr0
      let bgmLen ← readU32 B ptr
      let se1Len ← readU32 B (ptr + 4)
      let se2Len ← readU32 B (ptr + 8)
      let se3Len ← readU32 B (ptr + 12)
      let rawFrameSpeed ← readU8 B (ptr + 16)
      let rawBgmSpeed ← readU8 B (ptr + 17)
      let frameSpeed : Int := 8 - (rawFrameSpeed : Int)
      let bgmSpeed : Int := 8 - (rawBgmSpeed : Int)
      if frameSpeed ≤ 8 ∧ bgmSpeed ≤ 8 then
        do
          let ptr := ptr + 32
          let framerate := PPM_FRAMERATES.getD frameSpeed.toNat 0
          let bgmrate := PPM_FRAMERATES.getD bgmSpeed.toNat 0
          let duration := timeGetNoteDuration frameCount framerate
          let soundMeta : FlipnoteAudioTrack → Option (Nat × Nat) := fun t =>
            match t with
            | FlipnoteAudioTrack.BGM => some (ptr, bgmLen)
            | FlipnoteAudioTrack.SE1 => some (ptr + bgmLen, se1Len)
            | FlipnoteAudioTrack.SE2 => some (ptr + bgmLen + se1Len, se2Len)
            | FlipnoteAudioTrack.SE3 => some (ptr + bgmLen + se1Len + se2Len, se3Len)
            | FlipnoteAudioTrack.SE4 => none
          pure (frameSpeed, bgmSpeed, framerate, bgmrate, duration, soundMeta)
      else none
  else none

/-- The `PpmParser` constructor: header, animation header, sound header,
then the (version-guarded) metadata block. -/
def ppmParse (B : Bytes) : Option PpmParsed := do
  let (frameDataLength, soundDataLength, frameCount, version) ← ppmDecodeHeader B
  let frameOffsets ← ppmDecodeAnimationHeader B frameCount
  let (frameSpeed, bgmSpeed, framerate, bgmrate, duration, soundMeta) ←
    ppmDecodeSoundHeader B frameDataLength frameCount
  let _ ← if (version >>> 4) &&& 0xF ≠ 0 then ppmDecodeMeta B else pure ()
  pure ⟨B, frameDataLength, soundDataLength, frameCount, version, frameOffsets,
    frameSpeed, bgmSpeed, framerate, bgmrate, duration, soundMeta⟩

/-! ### PPM frame decoding (`PpmParser.decodeFrame`) -/

/-- PPM decoder mutable state between `decodeFrame` calls: the two layer
buffers, the two previous-frame layer buffers, and the last decoded frame
index. Buffers are pixel-index → value functions. -/
structure PpmSt where
  layer0 : Nat → Nat
  layer1 : Nat → Nat
  prevLayer0 : Nat → Nat
  prevLayer1 : Nat → Nat
  prevDecodedFrame : Option Int

/-- The state of a freshly constructed decoder: zeroed buffers, no
previously decoded frame. -/
def ppmFresh : PpmSt :=
  ⟨fun _ => 0, fun _ => 0, fun _ => 0, fun _ => 0, none⟩

/-- `PpmParser.isNewFrame(frameIndex)`: top bit of the frame header byte. -/
def ppmIsNewFrame (f : PpmParsed) (i : Nat) : Option Nat := do
  let header ← readU8 f.bytes (f.frameOffsets.getD i 0)
  pure ((header >>> 7) &&& 0x1)

/-- The line-encoding unpacking loop of `PpmParser.decodeFrame`: 48
iterations fill the 192-entry per-line type buffer, 4 entries per byte,
skipping 4 zero entries on a zero byte. -/
def ppmUnpackLineEncLoop (B : Bytes) :
    Nat → Nat → Nat → (Nat → Nat) → Option ((Nat → Nat) × Nat)
  | 0, p, _, enc => some (enc, p)
  | k + 1, p, ptr, enc => do
    let byte ← readU8 B p
    if byte = 0 then ppmUnpackLineEncLoop B k (p + 1) (ptr + 4) enc
    else
      ppmUnpackLineEncLoop B k (p + 1) (ptr + 4) (fun j =>
        if j = ptr then byte &&& 0x03
        else if j = ptr + 1 then (byte >>> 2) &&& 0x03
        else if j = ptr + 2 then (byte >>> 4) &&& 0x03
        else if j = ptr + 3 then (byte >>> 6) &&& 0x03
        else enc j)

/-- `Uint8Array.fill(v, lo, hi)` on a functional buffer. -/
def fillRange (v lo hi : Nat) (buf : Nat → Nat) : Nat → Nat :=
  fun j => if lo ≤ j ∧ j < hi then v else buf j

/-- The sparse chunk write of PPM line type 1: write bits of `chunk`
LSB-first from `pbp` until the remaining chunk is zero. -/
def ppmWriteChunkBits : Nat → Nat → (Nat → Nat) → (Nat → Nat)
  | chunk, pbp, buf =>
    if h : chunk = 0 then buf
    else
      ppmWriteChunkBits (chunk >>> 1) (pbp + 1)
        (fun j => if j = pbp then chunk &&& 1 else buf j)
termination_by chunk => chunk
decreasing_by
  simp only [Nat.shiftRight_eq_div_pow, pow_one]
  omega

/-- The full 8-bit chunk write of PPM line types 2 and 3. -/
def ppmWriteChunkBits8 (chunk pbp : Nat) (buf : Nat → Nat) : Nat → Nat :=
  fun j => if pbp ≤ j ∧ j < pbp + 8 then (chunk >>> (j - pbp)) &&& 1 else buf j

/-- The line-type-1 chunk loop: walk the 32-bit big-endian presence mask
left to right, reading one byte per present 8-pixel chunk. The mask is a
32-bit pattern; shifting left wraps mod `2 ^ 32` (JS `<<`), and 32
iterations always suffice to zero it. -/
def ppmLineType1Loop (B : Bytes) :
    Nat → Nat → Nat → Nat → (Nat → Nat) → Option ((Nat → Nat) × Nat)
  | 0, _, _, p, buf => some (buf, p)
  | fuel + 1, lineHeader, pbp, p, buf =>
    if lineHeader = 0 then some (buf, p)
    else
      if lineHeader &&& 0x80000000 ≠ 0 then do
        let chunk ← readU8 B p
        ppmLineType1Loop B fuel ((lineHeader <<< 1) % 2 ^ 32) (pbp + 8) (p + 1)
          (ppmWriteChunkBits chunk pbp buf)
      else
        ppmLineType1Loop B fuel ((lineHeader <<< 1) % 2 ^ 32) (pbp + 8) p buf

/-- The line-type-2 chunk loop: like type 1 but every present chunk
stores all 8 bits (the line was pre-filled with 1s). -/
def ppmLineType2Loop (B : Bytes) :
    Nat → Nat → Nat → Nat → (Nat → Nat) → Option ((Nat → Nat) × Nat)
  | 0, _, _, p, buf => some (buf, p)
  | fuel + 1, lineHeader, pbp, p, buf =>
    if lineHeader = 0 then some (buf, p)
    else
      if lineHeader &&& 0x80000000 ≠ 0 then do
        let chunk ← readU8 B p
        ppmLineType2Loop B fuel ((lineHeader <<< 1) % 2 ^ 32) (pbp + 8) (p + 1)
          (ppmWriteChunkBits8 chunk pbp buf)
      else
        ppmLineType2Loop B fuel ((lineHeader <<< 1) % 2 ^ 32) (pbp + 8) p buf

/-- The line-type-3 loop: 32 raw bytes, 8 pixels each. -/
def ppmLineType3Loop (B : Bytes) :
    Nat → Nat → Nat → (Nat → Nat) → Option ((Nat → Nat) × Nat)
  | 0, _, p, buf => some (buf, p)
  | k + 1, pbp, p, buf => do
    let chunk ← readU8 B p
    ppmLineType3Loop B k (pbp + 8) (p + 1) (ppmWriteChunkBits8 chunk pbp buf)

/-- Decode one PPM scanline according to its line type. -/
def ppmDecodeLine (B : Bytes) (lineType pbp p : Nat) (buf : Nat → Nat) :
    Option ((Nat → Nat) × Nat) :=
  if lineType = 1 then do
    let lh ← readU32BE B p
    ppmLineType1Loop B 32 lh pbp (p + 4) buf
  else if lineType = 2 then do
    let lh ← readU32BE B p
    ppmLineType2Loop B 32 lh pbp (p + 4) (fillRange 1 pbp (pbp + 256) buf)
  else if lineType = 3 then ppmLineType3Loop B 32 pbp p buf
  else some (buf, p)

/-- Decode one PPM layer: 192 scanlines in order, threading the byte
pointer, into a zero-filled buffer. -/
def ppmDecodeLayer (B : Bytes) (enc : Nat → Nat) (p0 : Nat) (buf0 : Nat → Nat) :
    Option ((Nat → Nat) × Nat) :=
  (List.range 192).foldlM
    (fun acc y => ppmDecodeLine B (enc y) (y * 256) acc.2 acc.1) (buf0, p0)

/-- The inter-frame XOR merge of `PpmParser.decodeFrame` with pixel
translation: destination pixels whose translated source falls inside the
canvas are XORed with the previous frame's buffer; rows and columns
shifted off either edge are left undiffed. -/
def ppmXorMerge (dest prevSrc : Nat → Nat) (tx ty : Int) : Nat → Nat :=
  fun d =>
    let y : Int := ((d / 256 : Nat) : Int)
    let x : Int := ((d % 256 : Nat) : Int)
    if 0 ≤ y - ty ∧ y - ty < 192 ∧ 0 ≤ x - tx ∧ x - tx < 256 then
      dest d ^^^ prevSrc ((d : Int) - (tx + ty * 256)).toNat
    else dest d

/-- The state-independent part of a `PpmParser.decodeFrame` call: frame
header, translation, line encodings and the two raw decoded layers. -/
structure PpmFrameData where
  isNewFrame : Nat
  translateX : Int
  translateY : Int
  L0 : Nat → Nat
  L1 : Nat → Nat

/-- Read and decode frame `i`'s data (header, translation, line
encodings, raw layer bitmaps): everything in the body of
`PpmParser.decodeFrame` that does not depend on decoder state. -/
def ppmDecodeFrameCoreData (f : PpmParsed) (i : Nat) : Option PpmFrameData := do
  let o := f.frameOffsets.getD i 0
  let header ← readU8 f.bytes o
  let isNewFrame := (header >>> 7) &&& 0x1
  let isTranslated := (header >>> 5) &&& 0x3
  let (tx, ty, p) ←
    if isTranslated ≠ 0 then do
      let tx ← readI8 f.bytes (o + 1)
      let ty ← readI8 f.bytes (o + 2)
      pure (tx, ty, o + 3)
    else pure ((0 : Int), (0 : Int), o + 1)
  let (enc0, p) ← ppmUnpackLineEncLoop f.bytes 48 p 0 (fun _ => 0)
  let (enc1, p) ← ppmUnpackLineEncLoop f.bytes 48 p 0 (fun _ => 0)
  let (l0, p) ← ppmDecodeLayer f.bytes enc0 p (fun _ => 0)
  let (l1, _) ← ppmDecodeLayer f.bytes enc1 p (fun _ => 0)
  pure ⟨isNewFrame, tx, ty, l0, l1⟩

/-- One non-recursive `PpmParser.decodeFrame` body: decode the frame's
data, XOR-merge with the previous layer buffers unless it is a keyframe,
and copy the result into the previous-frame buffers. -/
def ppmDecodeFrameCore (f : PpmParsed) (i : Nat) (s : PpmSt) : Option PpmSt :=
  (ppmDecodeFrameCoreData f i).map (fun d =>
    let m0 := if d.isNewFrame = 0 then
        ppmXorMerge d.L0 s.prevLayer0 d.translateX d.translateY
      else d.L0
    let m1 := if d.isNewFrame = 0 then
        ppmXorMerge d.L1 s.prevLayer1 d.translateX d.translateY
      else d.L1
    ⟨m0, m1, m0, m1, some (i : Int)⟩)

/-- `PpmParser.decodeFrame(frameIndex)`: bounds assert, then the
ancestor-chain recursion (decode frame `i - 1` first when the previous
decode was not `i - 1`, the frame is not a keyframe and `i ≠ 0`), then
the frame decode proper. -/
def ppmDecodeFrame (f : PpmParsed) : Nat → PpmSt → Option PpmSt
  | 0, s =>
    if 0 < f.frameCount then
      if s.prevDecodedFrame ≠ some (-1) then do
        let _b ← ppmIsNewFrame f 0
        ppmDecodeFrameCore f 0 s
      else ppmDecodeFrameCore f 0 s
    else none
  | i + 1, s =>
    if i + 1 < f.frameCount then
      if s.prevDecodedFrame ≠ some ((i : Int)) then do
        let b ← ppmIsNewFrame f (i + 1)
        if b = 0 then do
          let s' ← ppmDecodeFrame f i s
          ppmDecodeFrameCore f (i + 1) s'
        else ppmDecodeFrameCore f (i + 1) s
      else ppmDecodeFrameCore f (i + 1) s
    else none

/-- Decoding frames `0, 1, ..., i` by `decodeFrame` calls in strict
forward sequence on a freshly constructed decoder. -/
def ppmSeqDecode (f : PpmParsed) (i : Nat) : Option PpmSt :=
  (List.range (i + 1)).foldlM (fun s j => ppmDecodeFrame f j s) ppmFresh

/-! ## KWZ parser (`src/parsers/KwzParser.ts`) -/

/-- Base-3 digit `k` (digit 0 most significant of 8) of a line index:
the table-generation loop enumerates `(a, ..., h)` lexicographically, so
the running offset is exactly the base-3 value of the digit tuple. -/
def kwzDigit (n k : Nat) : Nat := n / 3 ^ (7 - k) % 3

/-- `KWZ_LINE_TABLE`: line `n`, pixel `pos`. The generation loop stores
`[b, a, d, c, f, e, h, g]` at offset `n * 8` for digits `(a..h)` of `n`. -/
def KWZ_LINE_TABLE (n pos : Nat) : Nat :=
  match pos with
  | 0 => kwzDigit n 1
  | 1 => kwzDigit n 0
  | 2 => kwzDigit n 3
  | 3 => kwzDigit n 2
  | 4 => kwzDigit n 5
  | 5 => kwzDigit n 4
  | 6 => kwzDigit n 7
  | 7 => kwzDigit n 6
  | _ => 0

/-- `KWZ_LINE_TABLE_SHIFT`: the generation loop stores
`[a, d, c, f, e, h, g, b]` at offset `n * 8`. -/
def KWZ_LINE_TABLE_SHIFT (n pos : Nat) : Nat :=
  match pos with
  | 0 => kwzDigit n 0
  | 1 => kwzDigit n 3
  | 2 => kwzDigit n 2
  | 3 => kwzDigit n 5
  | 4 => kwzDigit n 4
  | 5 => kwzDigit n 7
  | 6 => kwzDigit n 6
  | 7 => kwzDigit n 1
  | _ => 0

/-- The 32 magic line indices of the common-line tables. -/
def KWZ_COMMON_LINE_INDICES : List Nat :=
  [0x0000, 0x0CD0, 0x19A0, 0x02D9, 0x088B, 0x0051, 0x00F3, 0x0009,
   0x001B, 0x0001, 0x0003, 0x05B2, 0x1116, 0x00A2, 0x01E6, 0x0012,
   0x0036, 0x0002, 0x0006, 0x0B64, 0x08DC, 0x0144, 0x00FC, 0x0024,
   0x001C, 0x0004, 0x0334, 0x099C, 0x0668, 0x1338, 0x1004, 0x166C]

/-- `KWZ_LINE_TABLE_COMMON`: entry `i` copies the full-table line at the
`i`-th magic index. -/
def KWZ_LINE_TABLE_COMMON (i pos : Nat) : Nat :=
  KWZ_LINE_TABLE (KWZ_COMMON_LINE_INDICES.getD i 0) pos

/-- `KWZ_LINE_TABLE_COMMON_SHIFT`. -/
def KWZ_LINE_TABLE_COMMON_SHIFT (i pos : Nat) : Nat :=
  KWZ_LINE_TABLE_SHIFT (KWZ_COMMON_LINE_INDICES.getD i 0) pos

/-- A constructed `KwzParser` instance: the fields the decode methods
read. -/
structure KwzParsed where
  bytes : Bytes
  settings : KwzSettings
  frameCount : Nat
  frameMetaOffsets : List Nat
  frameDataOffsets : List Nat
  frameLayerSizes : List (Nat × Nat × Nat)
  frameSpeed : Nat
  framerate : Rat
  duration : Rat
  bgmSpeed : Nat
  bgmrate : Rat
  soundMeta : FlipnoteAudioTrack → Nat × Nat

/-- Section tags are the first up-to-3 bytes (stopping at a zero byte) of
the 4 read by `readChars(4).substring(0, 3)`. -/
def kwzSectionTag (B : Bytes) (p : Nat) : Option (List Nat) :=
  (readBytesP B p 4).map (fun bs => (bs.takeWhile (fun b => b ≠ 0)).take 3)

/-- JS `Map.set` on an association list: update in place or append. -/
def jsMapSet (m : List (List Nat × Nat × Nat)) (k : List Nat) (v : Nat × Nat) :
    List (List Nat × Nat × Nat) :=
  if m.any (fun e => e.1 = k) then m.map (fun e => if e.1 = k then (k, v) else e)
  else m ++ [(k, v)]

/-- JS `Map.get` on an association list. -/
def jsMapGet (m : List (List Nat × Nat × Nat)) (k : List Nat) : Option (Nat × Nat) :=
  (m.find? (fun e => e.1 = k)).map (fun e => e.2)

def tagKFH : List Nat := [0x4B, 0x46, 0x48]
def tagKMI : List Nat := [0x4B, 0x4D, 0x49]
def tagKMC : List Nat := [0x4B, 0x4D, 0x43]
def tagKSN : List Nat := [0x4B, 0x53, 0x4E]

/-- The section-walking loop of `KwzParser.buildSectionMap`: at most 6
sections, stopping at `byteLength - 256`. -/
def kwzSectionLoop (B : Bytes) (fileSize : Int) :
    Nat → Nat → List (List Nat × Nat × Nat) → Option (List (List Nat × Nat × Nat))
  | 0, _, m => some m
  | fuel + 1, ptr, m =>
    if (ptr : Int) < fileSize then do
      let tag ← kwzSectionTag B ptr
      let length ← readU32 B (ptr + 4)
      kwzSectionLoop B fileSize fuel (ptr + length + 8) (jsMapSet m tag (ptr, length))
    else some m

/-- `KwzParser.buildSectionMap`: walk sections, then assert that `KMC`
and `KMI` exist. -/
def kwzBuildSectionMap (B : Bytes) : Option (List (List Nat × Nat × Nat)) := do
  let m ← kwzSectionLoop B ((B.length : Int) - 256) 6 0 []
  if (jsMapGet m tagKMC).isSome ∧ (jsMapGet m tagKMI).isSome then pure m else none

/-- `KwzParser.decodeMetaQuick`: read the fixed-offset tail of the `KFH`
record. Returns `(frameCount, frameSpeed)`. -/
def kwzDecodeMetaQuick (B : Bytes) (m : List (List Nat × Nat × Nat)) :
    Option (Nat × Nat) := do
  let (kfhPtr, _) ← jsMapGet m tagKFH
  let base := kfhPtr + 0x8 + 0xC4
  let frameCount ← readU16 B base
  let _thumbFrameIndex ← readU16 B (base + 2)
  let _flags ← readU16 B (base + 4)
  let frameSpeed ← readU8 B (base + 6)
  let _layerFlags ← readU8 B (base + 7)
  pure (frameCount, frameSpeed)

/-- `KwzParser.readFilename`: reads 28 bytes; the DSi-library fallback
re-reads within the same 28 bytes and re-seeks to `ptr + 28`, so the
pointer always advances by exactly 28. -/
def kwzReadFilenameP (B : Bytes) (p : Nat) : Option (List Nat) :=
  readBytesP B p 28

/-- `KwzParser.decodeMeta`: the full metadata block. The string values do
not feed any decode path, but every read's bounds/alignment must succeed.
Returns `(frameCount, frameSpeed)`. -/
def kwzDecodeMeta (B : Bytes) (m : List (List Nat × Nat × Nat)) :
    Option (Nat × Nat) := do
  let (kfhPtr, _) ← jsMapGet m tagKFH
  let p := kfhPtr + 12
  let _ ← seqChecks
    [chk (readU32 B p),               -- creation timestamp
     chk (readU32 B (p + 4)),         -- modified timestamp
     chk (readU32 B (p + 8)),         -- app version
     chk (readBytesP B (p + 12) 10),  -- rootAuthorId
     chk (readBytesP B (p + 22) 10),  -- parentAuthorId
     chk (readBytesP B (p + 32) 10),  -- currentAuthorId
     chk (readWideCharsP B (p + 42) 11),  -- rootAuthorName
     chk (readWideCharsP B (p + 64) 11),  -- parentAuthorName
     chk (readWideCharsP B (p + 86) 11),  -- currentAuthorName
     chk (kwzReadFilenameP B (p + 108)),  -- rootFilename
     chk (kwzReadFilenameP B (p + 136)),  -- parentFilename
     chk (kwzReadFilenameP B (p + 164)),  -- currentFilename
     chk (readU16 B (p + 194)),       -- thumbIndex (after frameCount)
     chk (readU16 B (p + 196)),       -- flags
     chk (readU8 B (p + 199))]        -- layerFlags
  let frameCount ← readU16 B (p + 192)
  let frameSpeed ← readU8 B (p + 198)
  pure (frameCount, frameSpeed)

/-- The per-frame loop of `KwzParser.getFrameOffsets`: three layer sizes
per 28-byte record, cumulative data offsets, with bounds asserts. -/
def kwzFrameOffsetsLoop (B : Bytes) :
    Nat → Nat → Nat → Option (List Nat × List Nat × List (Nat × Nat × Nat))
  | 0, _, _ => some ([], [], [])
  | k + 1, frameMetaPtr, frameDataPtr => do
    let a ← readU16 B (frameMetaPtr + 4)
    let b ← readU16 B (frameMetaPtr + 6)
    let c ← readU16 B (frameMetaPtr + 8)
    let metaPtr' := frameMetaPtr + 28
    let dataPtr' := frameDataPtr + a + b + c
    if metaPtr' < B.length ∧ dataPtr' < B.length then
      do
        let (ms, ds, ls) ← kwzFrameOffsetsLoop B k metaPtr' dataPtr'
        pure (frameMetaPtr :: ms, frameDataPtr :: ds, (a, b, c) :: ls)
    else none

/-- `KwzParser.decodeSoundHeader`: BGM speed, rates and the chained
sound-track map. The `Uint32Array(buffer, ptr + 4, 20)` view needs 4-byte
alignment and 80 bytes of room. -/
def kwzDecodeSoundHeader (B : Bytes) (m : List (List Nat × Nat × Nat)) :
    Option (Nat × Rat × (FlipnoteAudioTrack → Nat × Nat)) := do
  let (ksnPtr, _) ← jsMapGet m tagKSN
  let ptr := ksnPtr + 8
  let bgmSpeed ← readU32 B ptr
  if bgmSpeed ≤ 10 then
    do
      let bgmrate := KWZ_FRAMERATES.getD bgmSpeed 0
      if (ptr + 4) % 4 = 0 ∧ ptr + 4 + 80 ≤ B.length then
        do
          let t0 ← readU32 B (ptr + 4)
          let t1 ← readU32 B (ptr + 8)
          let t2 ← readU32 B (ptr + 12)
          let t3 ← readU32 B (ptr + 16)
          let t4 ← readU32 B (ptr + 20)
          let soundMeta : FlipnoteAudioTrack → Nat × Nat := fun t =>
            match t with
            | FlipnoteAudioTrack.BGM => (ptr + 28, t0)
            | FlipnoteAudioTrack.SE1 => (ptr + 28 + t0, t1)
            | FlipnoteAudioTrack.SE2 => (ptr + 28 + t0 + t1, t2)
            | FlipnoteAudioTrack.SE3 => (ptr + 28 + t0 + t1 + t2, t3)
            | FlipnoteAudioTrack.SE4 => (ptr + 28 + t0 + t1 + t2 + t3, t4)
          pure (bgmSpeed, bgmrate, soundMeta)
      else none
  else none

/-- The `KwzParser` constructor: section map, (quick or full) metadata,
frame offset tables, sound header. -/
def kwzParse (B : Bytes) (s : KwzSettings) : Option KwzParsed := do
  let m ← kwzBuildSectionMap B
  let (frameCount, frameSpeed) ←
    if s.quickMeta then kwzDecodeMetaQuick B m else kwzDecodeMeta B m
  let framerate := KWZ_FRAMERATES.getD frameSpeed 0
  let duration := timeGetNoteDuration frameCount framerate
  let (kmiPtr, kmiLen) ← jsMapGet m tagKMI
  let (kmcPtr, _) ← jsMapGet m tagKMC
  if 28 * frameCount ≤ kmiLen then
    do
      let (metaOffs, dataOffs, sizes) ←
        kwzFrameOffsetsLoop B frameCount (kmiPtr + 8) (kmcPtr + 12)
      let (bgmSpeed, bgmrate, soundMeta) ← kwzDecodeSoundHeader B m
      pure ⟨B, s, frameCount, metaOffs, dataOffs, sizes, frameSpeed, framerate,
        duration, bgmSpeed, bgmrate, soundMeta⟩
  else none

/-! ### KWZ frame decoding (`KwzParser.decodeFrame`) -/

/-- KWZ decoder mutable state between `decodeFrame` calls: the three
layer buffers and the last decoded frame index. The bit-cursor registers
are reset before every layer decode, so they carry no information between
calls. -/
structure KwzSt where
  layer0 : Nat → Nat
  layer1 : Nat → Nat
  layer2 : Nat → Nat
  prevFrameIndex : Option Int

/-- The state of a freshly constructed KWZ decoder. -/
def kwzFresh : KwzSt := ⟨fun _ => 0, fun _ => 0, fun _ => 0, none⟩

/-- `KwzParser.getFrameDiffingFlag(frameIndex)`: bits 4-6 of the frame's
meta flags word. -/
def kwzGetFrameDiffingFlag (f : KwzParsed) (i : Nat) : Option Nat := do
  let flags ← readU32 f.bytes (f.frameMetaOffsets.getD i 0)
  pure ((flags >>> 4) &&& 0x07)

/-- The micro-tile coordinates `(x, y)` in the exact traversal order of
the nested tile loops of `KwzParser.decodeFrame` (128-pixel macro tiles
in raster order, 8-pixel micro tiles in raster order, with the `break`s
at the 320x240 canvas edges). -/
def kwzTileCoords : List (Nat × Nat) :=
  ([0, 128].map (fun tileOffsetY =>
    ([0, 128, 256].map (fun tileOffsetX =>
      ((((List.range 16).map (fun k => tileOffsetY + k * 8)).takeWhile
          (fun y => y < 240)).map (fun y =>
        ((((List.range 16).map (fun k => tileOffsetX + k * 8)).takeWhile
            (fun x => x < 320)).map (fun x => (x, y))))).flatten)).flatten)).flatten

/-- `Uint8Array.set` of one 8-pixel line at `ptr` on a functional buffer. -/
def kwzSetLine (buf : Nat → Nat) (ptr : Nat) (row : Nat → Nat) : Nat → Nat :=
  fun j => if ptr ≤ j ∧ j < ptr + 8 then row (j - ptr) else buf j

/-- Write rows at `pbp, pbp + 320, ...` in order (the repeated
`pixelBuffer.set(..., pixelBufferPtr += 320)` pattern). -/
def kwzSetRows : (Nat → Nat) → Nat → List (Nat → Nat) → (Nat → Nat)
  | buf, _, [] => buf
  | buf, pbp, r :: rs => kwzSetRows (kwzSetLine buf pbp r) (pbp + 320) rs

/-- The state threaded through the KWZ tile loop: pixel buffer, skip-tile
counter and bit-cursor state. -/
structure KwzTileSt where
  buf : Nat → Nat
  skip : Nat
  bs : BitSt

/-- The tile-type-4 row loop: an 8-bit presence mask selects, per row, a
5-bit common-table line or a 13-bit full-table line. -/
def kwzType4Loop (B : Bytes) (flags : Nat) :
    Nat → Nat → Nat → (Nat → Nat) → BitSt → Option ((Nat → Nat) × BitSt)
  | 0, _, _, buf, bs => some (buf, bs)
  | k + 1, mask, pbp, buf, bs => do
    let (buf, bs) ←
      if flags &&& mask ≠ 0 then do
        let (idx, bs) ← kwzReadBits B 5 bs
        pure (kwzSetLine buf pbp (KWZ_LINE_TABLE_COMMON idx), bs)
      else do
        let (idx, bs) ← kwzReadBits B 13 bs
        pure (kwzSetLine buf pbp (KWZ_LINE_TABLE idx), bs)
    kwzType4Loop B flags k (mask <<< 1) (pbp + 320) buf bs

/-- Decode one micro tile at `(x, y)` (one iteration of the innermost
tile loop of `KwzParser.decodeFrame`). -/
def kwzTileStep (B : Bytes) (st : KwzTileSt) (xy : Nat × Nat) : Option KwzTileSt :=
  if st.skip > 0 then some { st with skip := st.skip - 1 }
  else do
    let pbp := xy.2 * 320 + xy.1
    let (tileType, bs) ← kwzReadBits B 3 st.bs
    if tileType = 0 then do
      let (idx, bs) ← kwzReadBits B 5 bs
      let row := KWZ_LINE_TABLE_COMMON idx
      pure ⟨kwzSetRows st.buf pbp (List.replicate 8 row), 0, bs⟩
    else if tileType = 1 then do
      let (idx, bs) ← kwzReadBits B 13 bs
      let row := KWZ_LINE_TABLE idx
      pure ⟨kwzSetRows st.buf pbp (List.replicate 8 row), 0, bs⟩
    else if tileType = 2 then do
      let (idx, bs) ← kwzReadBits B 5 bs
      let a := KWZ_LINE_TABLE_COMMON idx
      let b := KWZ_LINE_TABLE_COMMON_SHIFT idx
      pure ⟨kwzSetRows st.buf pbp [a, b, a, b, a, b, a, b], 0, bs⟩
    else if tileType = 3 then do
      let (idx, bs) ← kwzReadBits B 13 bs
      let a := KWZ_LINE_TABLE idx
      let b := KWZ_LINE_TABLE_SHIFT idx
      pure ⟨kwzSetRows st.buf pbp [a, b, a, b, a, b, a, b], 0, bs⟩
    else if tileType = 4 then do
      let (flags, bs) ← kwzReadBits B 8 bs
      let (buf, bs) ← kwzType4Loop B flags 8 1 pbp st.buf bs
      pure ⟨buf, 0, bs⟩
    else if tileType = 5 then do
      let (cnt, bs) ← kwzReadBits B 5 bs
      pure ⟨st.buf, cnt, bs⟩
    else if tileType = 7 then do
      let (pattern, bs) ← kwzReadBits B 2 bs
      let (useCommonLines, bs) ← kwzReadBits B 1 bs
      let (pattern, a, b, bs) ←
        if useCommonLines ≠ 0 then do
          let (ia, bs) ← kwzReadBits B 5 bs
          let (ib, bs) ← kwzReadBits B 5 bs
          pure ((pattern + 1) % 4, KWZ_LINE_TABLE_COMMON ia,
            KWZ_LINE_TABLE_COMMON ib, bs)
        else do
          let (ia, bs) ← kwzReadBits B 13 bs
          let (ib, bs) ← kwzReadBits B 13 bs
          pure (pattern, KWZ_LINE_TABLE ia, KWZ_LINE_TABLE ib, bs)
      let rows :=
        if pattern = 0 then [a, b, a, b, a, b, a, b]
        else if pattern = 1 then [a, a, b, a, a, b, a, a]
        else if pattern = 2 then [a, b, a, a, b, a, a, b]
        else if pattern = 3 then [a, b, b, a, b, b, a, b]
        else []
      pure ⟨kwzSetRows st.buf pbp rows, 0, bs⟩
    else
      -- tile type 6 does not exist: no branch matches, nothing happens
      pure ⟨st.buf, 0, bs⟩

/-- Decode one KWZ layer: reset the bit cursor at the layer's data
offset, then run the tile loop over the canvas in traversal order. -/
def kwzDecodeLayerTiles (B : Bytes) (p0 : Nat) (buf0 : Nat → Nat) :
    Option (Nat → Nat) := do
  let st ← kwzTileCoords.foldlM (fun st xy => kwzTileStep B st xy)
    (KwzTileSt.mk buf0 0 (bitReset p0))
  pure st.buf

/-- Layer size of layer `li` from a frame's `(A, B, C)` size triple. -/
def kwzLayerSize (sizes : Nat × Nat × Nat) (li : Nat) : Nat :=
  match li with
  | 0 => sizes.1
  | 1 => sizes.2.1
  | _ => sizes.2.2

/-- The 3-layer loop of `KwzParser.decodeFrame`: skip a layer if its
stored size is the 38-byte sentinel or the diffing mask excludes it;
otherwise tile-decode it in place. The dead `dsiLibraryNote` check on a
fourth layer is kept as in the source (it can never fire). -/
def kwzDecodeFrameCore (f : KwzParsed) (i : Nat) (diffingFlag : Nat) (s : KwzSt) :
    Option KwzSt := do
  let framePtr0 := f.frameDataOffsets.getD i 0
  let sizes := f.frameLayerSizes.getD i (0, 0, 0)
  let r ← [0, 1, 2].foldlM
    (fun (acc : Nat × ((Nat → Nat) × (Nat → Nat) × (Nat → Nat)) × Bool) li => do
      let (framePtr, (l0, l1, l2), stopped) := acc
      if stopped then pure acc
      else if f.settings.dsiLibraryNote ∧ li = 3 then
        pure (framePtr, (l0, l1, l2), true)
      else
        do
          let layerSize := kwzLayerSize sizes li
          let framePtr' := framePtr + layerSize
          if layerSize = 38 then pure (framePtr', (l0, l1, l2), false)
          else if (diffingFlag >>> li) &&& 0x1 = 0 then
            pure (framePtr', (l0, l1, l2), false)
          else
            do
              let buf := match li with | 0 => l0 | 1 => l1 | _ => l2
              let buf' ← kwzDecodeLayerTiles f.bytes framePtr buf
              match li with
              | 0 => pure (framePtr', (buf', l1, l2), false)
              | 1 => pure (framePtr', (l0, buf', l2), false)
              | _ => pure (framePtr', (l0, l1, buf'), false))
    (framePtr0, (s.layer0, s.layer1, s.layer2), false)
  pure ⟨r.2.1.1, r.2.1.2.1, r.2.1.2.2, some (i : Int)⟩

/-- `KwzParser.decodeFrame(frameIndex, diffingFlag = 0x7, isPrevFrame =
false)`: bounds assert, ancestor recursion with the diff-mask narrowing
(`diffingFlag & ~getFrameDiffingFlag(frameIndex + 1)`; both operands are
3-bit, so the JS `~` is `^^^ 7` here), then the 3-layer decode. -/
def kwzDecodeFrame (f : KwzParsed) : Nat → Nat → Bool → KwzSt → Option KwzSt
  | 0, diffingFlag, _, s =>
    if 0 < f.frameCount then kwzDecodeFrameCore f 0 diffingFlag s else none
  | i + 1, diffingFlag, isPrevFrame, s =>
    if i + 1 < f.frameCount then
      if s.prevFrameIndex ≠ some ((i : Int)) then do
        let flag ←
          if isPrevFrame then do
            let d ← kwzGetFrameDiffingFlag f (i + 2)
            pure (diffingFlag &&& (d ^^^ 7))
          else pure diffingFlag
        let s' ← if flag ≠ 0 then kwzDecodeFrame f i flag true s else pure s
        kwzDecodeFrameCore f (i + 1) flag s'
      else kwzDecodeFrameCore f (i + 1) diffingFlag s
    else none

/-- Decoding frames `0, 1, ..., i` by `decodeFrame(j)` calls in strict
forward sequence on a freshly constructed KWZ decoder. -/
def kwzSeqDecode (f : KwzParsed) (i : Nat) : Option KwzSt :=
  (List.range (i + 1)).foldlM (fun s j => kwzDecodeFrame f j 0x7 false s) kwzFresh

/-! ## Audio track accessors -/

/-- `PpmParser.rawSampleRate`. -/
def ppmRawSampleRate : Rat := 8192

/-- `KwzParser.rawSampleRate`. -/
def kwzRawSampleRate : Rat := 16364

/-- `PpmParser.getAudioTrackRaw(trackId)`: asserts
`trackMeta.ptr + trackMeta.length < byteLength`, then reads the bytes.
A missing map entry (`SE4`) faults in JS, modelled as failure. -/
def ppmGetAudioTrackRaw (f : PpmParsed) (t : FlipnoteAudioTrack) : Option Bytes := do
  let tm ← f.soundMeta t
  if tm.1 + tm.2 < f.bytes.length then readBytesP f.bytes tm.1 tm.2 else none

/-- `PpmParser.decodeAudioTrack(trackId)`. -/
def ppmDecodeAudioTrack (f : PpmParsed) (t : FlipnoteAudioTrack) : Option (List Int) :=
  (ppmGetAudioTrackRaw f t).map ppmDecodeAudioTrackCore

/-- The effective source rate used by `PpmParser.getAudioTrackPcm`: the
raw rate, adjusted for BGM by the ratio of BGM to frame playback speed. -/
def ppmEffectiveSrcFreq (f : PpmParsed) (t : FlipnoteAudioTrack) : Rat :=
  if t = FlipnoteAudioTrack.BGM then
    ppmRawSampleRate * ((1 / f.bgmrate) / (1 / f.framerate))
  else ppmRawSampleRate

/-- `PpmParser.getAudioTrackPcm(trackId, dstFreq)`: decode, then
nearest-neighbour-resample unless the rates already agree. -/
def ppmGetAudioTrackPcm (f : PpmParsed) (t : FlipnoteAudioTrack) (dstFreq : Rat) :
    Option (List Int) := do
  let srcPcm ← ppmDecodeAudioTrack f t
  if ppmEffectiveSrcFreq f t ≠ dstFreq then
    pure (pcmResampleNearestNeighbour srcPcm (ppmEffectiveSrcFreq f t) dstFreq)
  else pure srcPcm

/-- `KwzParser.getAudioTrackRaw(trackId)`. -/
def kwzGetAudioTrackRaw (f : KwzParsed) (t : FlipnoteAudioTrack) : Option Bytes :=
  let tm := f.soundMeta t
  if tm.1 + tm.2 < f.bytes.length then readBytesP f.bytes tm.1 tm.2 else none

/-- `KwzParser.decodeAudioTrack(trackId)`. -/
def kwzDecodeAudioTrack (f : KwzParsed) (t : FlipnoteAudioTrack) : Option (List Int) :=
  (kwzGetAudioTrackRaw f t).map (kwzDecodeAudioTrackCore f.settings)

/-- The effective source rate used by `KwzParser.getAudioTrackPcm`. -/
def kwzEffectiveSrcFreq (f : KwzParsed) (t : FlipnoteAudioTrack) : Rat :=
  if t = FlipnoteAudioTrack.BGM then
    kwzRawSampleRate * ((1 / f.bgmrate) / (1 / f.framerate))
  else kwzRawSampleRate

/-- `KwzParser.getAudioTrackPcm(trackId, dstFreq)` (the compiled parser
resamples with linear interpolation). -/
def kwzGetAudioTrackPcm (f : KwzParsed) (t : FlipnoteAudioTrack) (dstFreq : Rat) :
    Option (List Int) := do
  let srcPcm ← kwzDecodeAudioTrack f t
  if kwzEffectiveSrcFreq f t ≠ dstFreq then
    pure (pcmResampleLinear srcPcm (kwzEffectiveSrcFreq f t) dstFreq)
  else pure srcPcm

/-- Whether frame `i`'s backward diff chain reaches a keyframe before
falling off frame 0: the chain walked by `decodeFrame`'s recursion. (A
failing header read is counted as `true`: both decodes fail together.) -/
def ppmHasKeyAncestor (f : PpmParsed) : Nat → Bool
  | 0 =>
    match ppmIsNewFrame f 0 with
    | some b => b ≠ 0
    | none => true
  | i + 1 =>
    match ppmIsNewFrame f (i + 1) with
    | some b => if b ≠ 0 then true else ppmHasKeyAncestor f i
    | none => true

/-! ## Format sniffing (`parseSource` in `dist/flipnote.es.js`) -/

/-- The dispatch decision of `parseSource`'s magic sniffing. -/
inductive SniffResult where
  | ppm
  | kwz
  | unrecognized
deriving Repr, DecidableEq

/-- The magic word assembled from the first 4 bytes
(`magicBytes[i] << shift`, missing bytes coerced to 0). -/
def parseSourceMagic (B : Bytes) : Nat :=
  (B.getD 0 0 <<< 24) ||| (B.getD 1 0 <<< 16) ||| (B.getD 2 0 <<< 8) ||| B.getD 3 0

/-- The magic sniffing of `parseSource`: `PARA` selects the PPM parser,
a `KFH` prefix the KWZ parser, anything else is rejected. -/
def parseSourceSniff (B : Bytes) : SniffResult :=
  let magic := parseSourceMagic B
  if magic = 0x50415241 then SniffResult.ppm
  else if magic &&& 0xFFFFFF00 = 0x4B464800 then SniffResult.kwz
  else SniffResult.unrecognized

/-- A decoder produced by `parseSource`. -/
inductive ParsedNote where
  | ppm (f : PpmParsed)
  | kwz (f : KwzParsed)

/-- `parseSource` failure modes: the pre-construction unrecognized-format
rejection, or an assertion failure inside a decoder constructor. -/
inductive ParseError where
  | unrecognizedFormat
  | constructionError
deriving Repr, DecidableEq

/-- `parseSource` over a loaded buffer: sniff the magic, then construct
the matching decoder; unrecognized magic is rejected before any decoder
construction is attempted. -/
def parseSource (B : Bytes) (ks : KwzSettings) : Except ParseError ParsedNote :=
  match parseSourceSniff B with
  | SniffResult.ppm =>
    match ppmParse B with
    | some f => Except.ok (ParsedNote.ppm f)
    | none => Except.error ParseError.constructionError
  | SniffResult.kwz =>
    match kwzParse B ks with
    | some f => Except.ok (ParsedNote.kwz f)
    | none => Except.error ParseError.constructionError
  | SniffResult.unrecognized => Except.error ParseError.unrecognizedFormat


/-! ## Concrete inputs for counterexamples and witnesses

`kwzCexBytes1` and `kwzCexBytes3` are well-formed KWZ containers (KFH,
KMI, KMC, KSN sections, 3 frames, 256 padding bytes); `ppmCexBytes` is a
well-formed PPM container with one non-keyframe frame whose first layer
sets pixel 0. The byte lists were laid out by hand from the binary
layouts in the parsers.
-/

def kwzCexBytes1 : Bytes :=
  [75, 70, 72, 0, 204, 0, 0, 0, 0, 0, 0, 0, 0, 0, 0, 0, 0, 0, 0, 0, 0, 0, 0, 0,
   0, 0, 0, 0, 0, 0, 0, 0, 0, 0, 0, 0, 0, 0, 0, 0, 0, 0, 0, 0, 0, 0, 0, 0,
   0, 0, 0, 0, 0, 0, 0, 0, 0, 0, 0, 0, 0, 0, 0, 0, 0, 0, 0, 0, 0, 0, 0, 0,
   0, 0, 0, 0, 0, 0, 0, 0, 0, 0, 0, 0, 0, 0, 0, 0, 0, 0, 0, 0, 0, 0, 0, 0,
   0, 0, 0, 0, 0, 0, 0, 0, 0, 0, 0, 0, 0, 0, 0, 0, 0, 0, 0, 0, 0, 0, 0, 0,
   0, 0, 0, 0, 0, 0, 0, 0, 0, 0, 0, 0, 0, 0, 0, 0, 0, 0, 0, 0, 0, 0, 0, 0,
   0, 0, 0, 0, 0, 0, 0, 0, 0, 0, 0, 0, 0, 0, 0, 0, 0, 0, 0, 0, 0, 0, 0, 0,
   0, 0, 0, 0, 0, 0, 0, 0, 0, 0, 0, 0, 0, 0, 0, 0, 0, 0, 0, 0, 0, 0, 0, 0,
   0, 0, 0, 0, 0, 0, 0, 0, 0, 0, 0, 0, 3, 0, 0, 0, 0, 0, 0, 0, 75, 77, 73, 0,
   84, 0, 0, 0, 0, 0, 0, 0, 40, 0, 38, 0, 38, 0, 0, 0, 0, 0, 0, 0, 0, 0, 0, 0,
   0, 0, 0, 0, 0, 0, 0, 0, 0, 0, 0, 0, 38, 0, 38, 0, 38, 0, 0, 0, 0, 0, 0, 0,
   0, 0, 0, 0, 0, 0, 0, 0, 0, 0, 0, 0, 112, 0, 0, 0, 38, 0, 38, 0, 38, 0, 0, 0,
   0, 0, 0, 0, 0, 0, 0, 0, 0, 0, 0, 0, 0, 0, 0, 0, 75, 77, 67, 0, 92, 1, 0, 0,
   0, 0, 0, 0, 8, 253, 253, 253, 253, 253, 253, 253, 253, 253, 253, 253, 253, 253, 253, 253, 253, 253, 253, 253,
   253, 253, 253, 253, 253, 253, 253, 253, 253, 253, 253, 253, 253, 253, 253, 253, 253, 253, 117, 0, 0, 0, 0, 0,
   0, 0, 0, 0, 0, 0, 0, 0, 0, 0, 0, 0, 0, 0, 0, 0, 0, 0, 0, 0, 0, 0, 0, 0,
   0, 0, 0, 0, 0, 0, 0, 0, 0, 0, 0, 0, 0, 0, 0, 0, 0, 0, 0, 0, 0, 0, 0, 0,
   0, 0, 0, 0, 0, 0, 0, 0, 0, 0, 0, 0, 0, 0, 0, 0, 0, 0, 0, 0, 0, 0, 0, 0,
   0, 0, 0, 0, 0, 0, 0, 0, 0, 0, 0, 0, 0, 0, 0, 0, 0, 0, 0, 0, 0, 0, 0, 0,
   0, 0, 0, 0, 0, 0, 0, 0, 0, 0, 0, 0, 0, 0, 0, 0, 0, 0, 0, 0, 0, 0, 0, 0,
   0, 0, 0, 0, 0, 0, 0, 0, 0, 0, 0, 0, 0, 0, 0, 0, 0, 0, 0, 0, 0, 0, 0, 0,
   0, 0, 0, 0, 0, 0, 0, 0, 0, 0, 0, 0, 0, 0, 0, 0, 0, 0, 0, 0, 0, 0, 0, 0,
   0, 0, 0, 0, 0, 0, 0, 0, 0, 0, 0, 0, 0, 0, 0, 0, 0, 0, 0, 0, 0, 0, 0, 0,
   0, 0, 0, 0, 0, 0, 0, 0, 0, 0, 0, 0, 0, 0, 0, 0, 0, 0, 0, 0, 0, 0, 0, 0,
   0, 0, 0, 0, 0, 0, 0, 0, 0, 0, 0, 0, 0, 0, 0, 0, 0, 0, 0, 0, 0, 0, 0, 0,
   0, 0, 0, 0, 0, 0, 0, 0, 0, 0, 0, 0, 0, 0, 0, 0, 0, 0, 0, 0, 0, 0, 0, 0,
   0, 0, 0, 0, 0, 0, 0, 0, 0, 0, 0, 0, 0, 0, 0, 0, 0, 0, 0, 0, 0, 0, 0, 0,
   0, 0, 0, 0, 0, 0, 0, 0, 0, 0, 0, 0, 75, 83, 78, 0, 84, 0, 0, 0, 0, 0, 0, 0,
   0, 0, 0, 0, 0, 0, 0, 0, 0, 0, 0, 0, 0, 0, 0, 0, 0, 0, 0, 0, 0, 0, 0, 0,
   0, 0, 0, 0, 0, 0, 0, 0, 0, 0, 0, 0, 0, 0, 0, 0, 0, 0, 0, 0, 0, 0, 0, 0,
   0, 0, 0, 0, 0, 0, 0, 0, 0, 0, 0, 0, 0, 0, 0, 0, 0, 0, 0, 0, 0, 0, 0, 0,
   0, 0, 0, 0, 0, 0, 0, 0, 0, 0, 0, 0, 0, 0, 0, 0, 0, 0, 0, 0, 0, 0, 0, 0,
   0, 0, 0, 0, 0, 0, 0, 0, 0, 0, 0, 0, 0, 0, 0, 0, 0, 0, 0, 0, 0, 0, 0, 0,
   0, 0, 0, 0, 0, 0, 0, 0, 0, 0, 0, 0, 0, 0, 0, 0, 0, 0, 0, 0, 0, 0, 0, 0,
   0, 0, 0, 0, 0, 0, 0, 0, 0, 0, 0, 0, 0, 0, 0, 0, 0, 0, 0, 0, 0, 0, 0, 0,
   0, 0, 0, 0, 0, 0, 0, 0, 0, 0, 0, 0, 0, 0, 0, 0, 0, 0, 0, 0, 0, 0, 0, 0,
   0, 0, 0, 0, 0, 0, 0, 0, 0, 0, 0, 0, 0, 0, 0, 0, 0, 0, 0, 0, 0, 0, 0, 0,
   0, 0, 0, 0, 0, 0, 0, 0, 0, 0, 0, 0, 0, 0, 0, 0, 0, 0, 0, 0, 0, 0, 0, 0,
   0, 0, 0, 0, 0, 0, 0, 0, 0, 0, 0, 0, 0, 0, 0, 0, 0, 0, 0, 0, 0, 0, 0, 0,
   0, 0, 0, 0, 0, 0, 0, 0, 0, 0, 0, 0, 0, 0, 0, 0, 0, 0, 0, 0, 0, 0, 0, 0,
   0, 0, 0, 0, 0, 0, 0, 0, 0, 0, 0, 0, 0, 0, 0, 0, 0, 0, 0, 0, 0, 0, 0, 0,
   0, 0, 0, 0, 0, 0, 0, 0, 0, 0, 0, 0, 0, 0, 0, 0, 0, 0, 0, 0, 0, 0, 0, 0]

def kwzCexBytes3 : Bytes :=
  [75, 70, 72, 0, 204, 0, 0, 0, 0, 0, 0, 0, 0, 0, 0, 0, 0, 0, 0, 0, 0, 0, 0, 0,
   0, 0, 0, 0, 0, 0, 0, 0, 0, 0, 0, 0, 0, 0, 0, 0, 0, 0, 0, 0, 0, 0, 0, 0,
   0, 0, 0, 0, 0, 0, 0, 0, 0, 0, 0, 0, 0, 0, 0, 0, 0, 0, 0, 0, 0, 0, 0, 0,
   0, 0, 0, 0, 0, 0, 0, 0, 0, 0, 0, 0, 0, 0, 0, 0, 0, 0, 0, 0, 0, 0, 0, 0,
   0, 0, 0, 0, 0, 0, 0, 0, 0, 0, 0, 0, 0, 0, 0, 0, 0, 0, 0, 0, 0, 0, 0, 0,
   0, 0, 0, 0, 0, 0, 0, 0, 0, 0, 0, 0, 0, 0, 0, 0, 0, 0, 0, 0, 0, 0, 0, 0,
   0, 0, 0, 0, 0, 0, 0, 0, 0, 0, 0, 0, 0, 0, 0, 0, 0, 0, 0, 0, 0, 0, 0, 0,
   0, 0, 0, 0, 0, 0, 0, 0, 0, 0, 0, 0, 0, 0, 0, 0, 0, 0, 0, 0, 0, 0, 0, 0,
   0, 0, 0, 0, 0, 0, 0, 0, 0, 0, 0, 0, 3, 0, 0, 0, 0, 0, 0, 0, 75, 77, 73, 0,
   84, 0, 0, 0, 0, 0, 0, 0, 40, 0, 38, 0, 38, 0, 0, 0, 0, 0, 0, 0, 0, 0, 0, 0,
   0, 0, 0, 0, 0, 0, 0, 0, 0, 0, 0, 0, 40, 0, 38, 0, 38, 0, 0, 0, 0, 0, 0, 0,
   0, 0, 0, 0, 0, 0, 0, 0, 0, 0, 0, 0, 0, 0, 0, 0, 38, 0, 38, 0, 38, 0, 0, 0,
   0, 0, 0, 0, 0, 0, 0, 0, 0, 0, 0, 0, 0, 0, 0, 0, 75, 77, 67, 0, 92, 1, 0, 0,
   0, 0, 0, 0, 8, 253, 253, 253, 253, 253, 253, 253, 253, 253, 253, 253, 253, 253, 253, 253, 253, 253, 253, 253,
   253, 253, 253, 253, 253, 253, 253, 253, 253, 253, 253, 253, 253, 253, 253, 253, 253, 253, 117, 0, 0, 0, 0, 0,
   0, 0, 0, 0, 0, 0, 0, 0, 0, 0, 0, 0, 0, 0, 0, 0, 0, 0, 0, 0, 0, 0, 0, 0,
   0, 0, 0, 0, 0, 0, 0, 0, 0, 0, 0, 0, 0, 0, 0, 0, 0, 0, 0, 0, 0, 0, 0, 0,
   0, 0, 0, 0, 0, 0, 0, 0, 0, 0, 0, 0, 0, 0, 0, 0, 0, 0, 0, 0, 0, 0, 0, 0,
   0, 253, 253, 253, 253, 253, 253, 253, 253, 253, 253, 253, 253, 253, 253, 253, 253, 253, 253, 253, 253, 253, 253, 253,
   253, 253, 253, 253, 253, 253, 253, 253, 253, 253, 253, 253, 253, 253, 117, 0, 0, 0, 0, 0, 0, 0, 0, 0,
   0, 0, 0, 0, 0, 0, 0, 0, 0, 0, 0, 0, 0, 0, 0, 0, 0, 0, 0, 0, 0, 0, 0, 0,
   0, 0, 0, 0, 0, 0, 0, 0, 0, 0, 0, 0, 0, 0, 0, 0, 0, 0, 0, 0, 0, 0, 0, 0,
   0, 0, 0, 0, 0, 0, 0, 0, 0, 0, 0, 0, 0, 0, 0, 0, 0, 0, 0, 0, 0, 0, 0, 0,
   0, 0, 0, 0, 0, 0, 0, 0, 0, 0, 0, 0, 0, 0, 0, 0, 0, 0, 0, 0, 0, 0, 0, 0,
   0, 0, 0, 0, 0, 0, 0, 0, 0, 0, 0, 0, 0, 0, 0, 0, 0, 0, 0, 0, 0, 0, 0, 0,
   0, 0, 0, 0, 0, 0, 0, 0, 0, 0, 0, 0, 0, 0, 0, 0, 0, 0, 0, 0, 0, 0, 0, 0,
   0, 0, 0, 0, 0, 0, 0, 0, 0, 0, 0, 0, 0, 0, 0, 0, 0, 0, 0, 0, 0, 0, 0, 0,
   0, 0, 0, 0, 0, 0, 0, 0, 0, 0, 0, 0, 75, 83, 78, 0, 84, 0, 0, 0, 0, 0, 0, 0,
   0, 0, 0, 0, 0, 0, 0, 0, 0, 0, 0, 0, 0, 0, 0, 0, 0, 0, 0, 0, 0, 0, 0, 0,
   0, 0, 0, 0, 0, 0, 0, 0, 0, 0, 0, 0, 0, 0, 0, 0, 0, 0, 0, 0, 0, 0, 0, 0,
   0, 0, 0, 0, 0, 0, 0, 0, 0, 0, 0, 0, 0, 0, 0, 0, 0, 0, 0, 0, 0, 0, 0, 0,
   0, 0, 0, 0, 0, 0, 0, 0, 0, 0, 0, 0, 0, 0, 0, 0, 0, 0, 0, 0, 0, 0, 0, 0,
   0, 0, 0, 0, 0, 0, 0, 0, 0, 0, 0, 0, 0, 0, 0, 0, 0, 0, 0, 0, 0, 0, 0, 0,
   0, 0, 0, 0, 0, 0, 0, 0, 0, 0, 0, 0, 0, 0, 0, 0, 0, 0, 0, 0, 0, 0, 0, 0,
   0, 0, 0, 0, 0, 0, 0, 0, 0, 0, 0, 0, 0, 0, 0, 0, 0, 0, 0, 0, 0, 0, 0, 0,
   0, 0, 0, 0, 0, 0, 0, 0, 0, 0, 0, 0, 0, 0, 0, 0, 0, 0, 0, 0, 0, 0, 0, 0,
   0, 0, 0, 0, 0, 0, 0, 0, 0, 0, 0, 0, 0, 0, 0, 0, 0, 0, 0, 0, 0, 0, 0, 0,
   0, 0, 0, 0, 0, 0, 0, 0, 0, 0, 0, 0, 0, 0, 0, 0, 0, 0, 0, 0, 0, 0, 0, 0,
   0, 0, 0, 0, 0, 0, 0, 0, 0, 0, 0, 0, 0, 0, 0, 0, 0, 0, 0, 0, 0, 0, 0, 0,
   0, 0, 0, 0, 0, 0, 0, 0, 0, 0, 0, 0, 0, 0, 0, 0, 0, 0, 0, 0, 0, 0, 0, 0,
   0, 0, 0, 0, 0, 0, 0, 0, 0, 0, 0, 0, 0, 0, 0, 0, 0, 0, 0, 0, 0, 0, 0, 0,
   0, 0, 0, 0, 0, 0, 0, 0, 0, 0, 0, 0, 0, 0, 0, 0, 0, 0, 0, 0, 0, 0, 0, 0]

def ppmCexBytes : Bytes :=
  [80, 65, 82, 65, 114, 0, 0, 0, 0, 0, 0, 0, 0, 0, 0, 0, 0, 0, 0, 0, 0, 0, 0, 0,
   0, 0, 0, 0, 0, 0, 0, 0, 0, 0, 0, 0, 0, 0, 0, 0, 0, 0, 0, 0, 0, 0, 0, 0,
   0, 0, 0, 0, 0, 0, 0, 0, 0, 0, 0, 0, 0, 0, 0, 0, 0, 0, 0, 0, 0, 0, 0, 0,
   0, 0, 0, 0, 0, 0, 0, 0, 0, 0, 0, 0, 0, 0, 0, 0, 0, 0, 0, 0, 0, 0, 0, 0,
   0, 0, 0, 0, 0, 0, 0, 0, 0, 0, 0, 0, 0, 0, 0, 0, 0, 0, 0, 0, 0, 0, 0, 0,
   0, 0, 0, 0, 0, 0, 0, 0, 0, 0, 0, 0, 0, 0, 0, 0, 0, 0, 0, 0, 0, 0, 0, 0,
   0, 0, 0, 0, 0, 0, 0, 0, 0, 0, 0, 0, 0, 0, 0, 0, 0, 0, 0, 0, 0, 0, 0, 0,
   0, 0, 0, 0, 0, 0, 0, 0, 0, 0, 0, 0, 0, 0, 0, 0, 0, 0, 0, 0, 0, 0, 0, 0,
   0, 0, 0, 0, 0, 0, 0, 0, 0, 0, 0, 0, 0, 0, 0, 0, 0, 0, 0, 0, 0, 0, 0, 0,
   0, 0, 0, 0, 0, 0, 0, 0, 0, 0, 0, 0, 0, 0, 0, 0, 0, 0, 0, 0, 0, 0, 0, 0,
   0, 0, 0, 0, 0, 0, 0, 0, 0, 0, 0, 0, 0, 0, 0, 0, 0, 0, 0, 0, 0, 0, 0, 0,
   0, 0, 0, 0, 0, 0, 0, 0, 0, 0, 0, 0, 0, 0, 0, 0, 0, 0, 0, 0, 0, 0, 0, 0,
   0, 0, 0, 0, 0, 0, 0, 0, 0, 0, 0, 0, 0, 0, 0, 0, 0, 0, 0, 0, 0, 0, 0, 0,
   0, 0, 0, 0, 0, 0, 0, 0, 0, 0, 0, 0, 0, 0, 0, 0, 0, 0, 0, 0, 0, 0, 0, 0,
   0, 0, 0, 0, 0, 0, 0, 0, 0, 0, 0, 0, 0, 0, 0, 0, 0, 0, 0, 0, 0, 0, 0, 0,
   0, 0, 0, 0, 0, 0, 0, 0, 0, 0, 0, 0, 0, 0, 0, 0, 0, 0, 0, 0, 0, 0, 0, 0,
   0, 0, 0, 0, 0, 0, 0, 0, 0, 0, 0, 0, 0, 0, 0, 0, 0, 0, 0, 0, 0, 0, 0, 0,
   0, 0, 0, 0, 0, 0, 0, 0, 0, 0, 0, 0, 0, 0, 0, 0, 0, 0, 0, 0, 0, 0, 0, 0,
   0, 0, 0, 0, 0, 0, 0, 0, 0, 0, 0, 0, 0, 0, 0, 0, 0, 0, 0, 0, 0, 0, 0, 0,
   0, 0, 0, 0, 0, 0, 0, 0, 0, 0, 0, 0, 0, 0, 0, 0, 0, 0, 0, 0, 0, 0, 0, 0,
   0, 0, 0, 0, 0, 0, 0, 0, 0, 0, 0, 0, 0, 0, 0, 0, 0, 0, 0, 0, 0, 0, 0, 0,
   0, 0, 0, 0, 0, 0, 0, 0, 0, 0, 0, 0, 0, 0, 0, 0, 0, 0, 0, 0, 0, 0, 0, 0,
   0, 0, 0, 0, 0, 0, 0, 0, 0, 0, 0, 0, 0, 0, 0, 0, 0, 0, 0, 0, 0, 0, 0, 0,
   0, 0, 0, 0, 0, 0, 0, 0, 0, 0, 0, 0, 0, 0, 0, 0, 0, 0, 0, 0, 0, 0, 0, 0,
   0, 0, 0, 0, 0, 0, 0, 0, 0, 0, 0, 0, 0, 0, 0, 0, 0, 0, 0, 0, 0, 0, 0, 0,
   0, 0, 0, 0, 0, 0, 0, 0, 0, 0, 0, 0, 0, 0, 0, 0, 0, 0, 0, 0, 0, 0, 0, 0,
   0, 0, 0, 0, 0, 0, 0, 0, 0, 0, 0, 0, 0, 0, 0, 0, 0, 0, 0, 0, 0, 0, 0, 0,
   0, 0, 0, 0, 0, 0, 0, 0, 0, 0, 0, 0, 0, 0, 0, 0, 0, 0, 0, 0, 0, 0, 0, 0,
   0, 0, 0, 0, 0, 0, 0, 0, 0, 0, 0, 0, 0, 0, 0, 0, 0, 0, 0, 0, 0, 0, 0, 0,
   0, 0, 0, 0, 0, 0, 0, 0, 0, 0, 0, 0, 0, 0, 0, 0, 0, 0, 0, 0, 0, 0, 0, 0,
   0, 0, 0, 0, 0, 0, 0, 0, 0, 0, 0, 0, 0, 0, 0, 0, 0, 0, 0, 0, 0, 0, 0, 0,
   0, 0, 0, 0, 0, 0, 0, 0, 0, 0, 0, 0, 0, 0, 0, 0, 0, 0, 0, 0, 0, 0, 0, 0,
   0, 0, 0, 0, 0, 0, 0, 0, 0, 0, 0, 0, 0, 0, 0, 0, 0, 0, 0, 0, 0, 0, 0, 0,
   0, 0, 0, 0, 0, 0, 0, 0, 0, 0, 0, 0, 0, 0, 0, 0, 0, 0, 0, 0, 0, 0, 0, 0,
   0, 0, 0, 0, 0, 0, 0, 0, 0, 0, 0, 0, 0, 0, 0, 0, 0, 0, 0, 0, 0, 0, 0, 0,
   0, 0, 0, 0, 0, 0, 0, 0, 0, 0, 0, 0, 0, 0, 0, 0, 0, 0, 0, 0, 0, 0, 0, 0,
   0, 0, 0, 0, 0, 0, 0, 0, 0, 0, 0, 0, 0, 0, 0, 0, 0, 0, 0, 0, 0, 0, 0, 0,
   0, 0, 0, 0, 0, 0, 0, 0, 0, 0, 0, 0, 0, 0, 0, 0, 0, 0, 0, 0, 0, 0, 0, 0,
   0, 0, 0, 0, 0, 0, 0, 0, 0, 0, 0, 0, 0, 0, 0, 0, 0, 0, 0, 0, 0, 0, 0, 0,
   0, 0, 0, 0, 0, 0, 0, 0, 0, 0, 0, 0, 0, 0, 0, 0, 0, 0, 0, 0, 0, 0, 0, 0,
   0, 0, 0, 0, 0, 0, 0, 0, 0, 0, 0, 0, 0, 0, 0, 0, 0, 0, 0, 0, 0, 0, 0, 0,
   0, 0, 0, 0, 0, 0, 0, 0, 0, 0, 0, 0, 0, 0, 0, 0, 0, 0, 0, 0, 0, 0, 0, 0,
   0, 0, 0, 0, 0, 0, 0, 0, 0, 0, 0, 0, 0, 0, 0, 0, 0, 0, 0, 0, 0, 0, 0, 0,
   0, 0, 0, 0, 0, 0, 0, 0, 0, 0, 0, 0, 0, 0, 0, 0, 0, 0, 0, 0, 0, 0, 0, 0,
   0, 0, 0, 0, 0, 0, 0, 0, 0, 0, 0, 0, 0, 0, 0, 0, 0, 0, 0, 0, 0, 0, 0, 0,
   0, 0, 0, 0, 0, 0, 0, 0, 0, 0, 0, 0, 0, 0, 0, 0, 0, 0, 0, 0, 0, 0, 0, 0,
   0, 0, 0, 0, 0, 0, 0, 0, 0, 0, 0, 0, 0, 0, 0, 0, 0, 0, 0, 0, 0, 0, 0, 0,
   0, 0, 0, 0, 0, 0, 0, 0, 0, 0, 0, 0, 0, 0, 0, 0, 0, 0, 0, 0, 0, 0, 0, 0,
   0, 0, 0, 0, 0, 0, 0, 0, 0, 0, 0, 0, 0, 0, 0, 0, 0, 0, 0, 0, 0, 0, 0, 0,
   0, 0, 0, 0, 0, 0, 0, 0, 0, 0, 0, 0, 0, 0, 0, 0, 0, 0, 0, 0, 0, 0, 0, 0,
   0, 0, 0, 0, 0, 0, 0, 0, 0, 0, 0, 0, 0, 0, 0, 0, 0, 0, 0, 0, 0, 0, 0, 0,
   0, 0, 0, 0, 0, 0, 0, 0, 0, 0, 0, 0, 0, 0, 0, 0, 0, 0, 0, 0, 0, 0, 0, 0,
   0, 0, 0, 0, 0, 0, 0, 0, 0, 0, 0, 0, 0, 0, 0, 0, 0, 0, 0, 0, 0, 0, 0, 0,
   0, 0, 0, 0, 0, 0, 0, 0, 0, 0, 0, 0, 0, 0, 0, 0, 0, 0, 0, 0, 0, 0, 0, 0,
   0, 0, 0, 0, 0, 0, 0, 0, 0, 0, 0, 0, 0, 0, 0, 0, 0, 0, 0, 0, 0, 0, 0, 0,
   0, 0, 0, 0, 0, 0, 0, 0, 0, 0, 0, 0, 0, 0, 0, 0, 0, 0, 0, 0, 0, 0, 0, 0,
   0, 0, 0, 0, 0, 0, 0, 0, 0, 0, 0, 0, 0, 0, 0, 0, 0, 0, 0, 0, 0, 0, 0, 0,
   0, 0, 0, 0, 0, 0, 0, 0, 0, 0, 0, 0, 0, 0, 0, 0, 0, 0, 0, 0, 0, 0, 0, 0,
   0, 0, 0, 0, 0, 0, 0, 0, 0, 0, 0, 0, 0, 0, 0, 0, 0, 0, 0, 0, 0, 0, 0, 0,
   0, 0, 0, 0, 0, 0, 0, 0, 0, 0, 0, 0, 0, 0, 0, 0, 0, 0, 0, 0, 0, 0, 0, 0,
   0, 0, 0, 0, 0, 0, 0, 0, 0, 0, 0, 0, 0, 0, 0, 0, 0, 0, 0, 0, 0, 0, 0, 0,
   0, 0, 0, 0, 0, 0, 0, 0, 0, 0, 0, 0, 0, 0, 0, 0, 0, 0, 0, 0, 0, 0, 0, 0,
   0, 0, 0, 0, 0, 0, 0, 0, 0, 0, 0, 0, 0, 0, 0, 0, 0, 0, 0, 0, 0, 0, 0, 0,
   0, 0, 0, 0, 0, 0, 0, 0, 0, 0, 0, 0, 0, 0, 0, 0, 0, 0, 0, 0, 0, 0, 0, 0,
   0, 0, 0, 0, 0, 0, 0, 0, 0, 0, 0, 0, 0, 0, 0, 0, 0, 0, 0, 0, 0, 0, 0, 0,
   0, 0, 0, 0, 0, 0, 0, 0, 0, 0, 0, 0, 0, 0, 0, 0, 0, 0, 0, 0, 0, 0, 0, 0,
   0, 0, 0, 0, 0, 0, 0, 0, 0, 0, 0, 0, 0, 0, 0, 0, 0, 0, 0, 0, 0, 0, 0, 0,
   0, 0, 0, 0, 0, 0, 0, 0, 0, 0, 0, 0, 0, 0, 0, 0, 0, 0, 0, 0, 0, 0, 0, 0,
   0, 0, 0, 0, 0, 0, 0, 0, 0, 0, 0, 0, 0, 0, 0, 0, 0, 0, 0, 0, 0, 0, 0, 0,
   0, 0, 0, 0, 0, 0, 0, 0, 0, 0, 0, 0, 0, 0, 0, 0, 0, 0, 0, 0, 0, 0, 0, 0,
   0, 0, 0, 0, 0, 0, 0, 0, 0, 0, 0, 0, 0, 0, 0, 0, 4, 0, 0, 0, 0, 0, 0, 0,
   0, 0, 0, 0, 0, 1, 0, 0, 0, 0, 0, 0, 0, 0, 0, 0, 0, 0, 0, 0, 0, 0, 0, 0,
   0, 0, 0, 0, 0, 0, 0, 0, 0, 0, 0, 0, 0, 0, 0, 0, 0, 0, 0, 0, 0, 0, 0, 0,
   0, 0, 0, 0, 0, 0, 0, 0, 0, 0, 0, 0, 0, 0, 0, 0, 0, 0, 0, 0, 0, 0, 0, 0,
   0, 0, 0, 0, 0, 0, 0, 0, 0, 0, 0, 0, 0, 0, 0, 0, 0, 0, 0, 0, 0, 0, 0, 0,
   0, 0, 0, 0, 0, 128, 0, 0, 0, 1, 0, 0, 0, 0, 0, 0, 0, 0, 0, 0, 0, 0, 0, 0,
   0, 0, 0, 0, 8, 8, 0, 0]

/-- The KWZ parser settings used by the concrete decoder instances. -/
def kwzCexSettings : KwzSettings := ⟨true, false, false⟩

/-- Sequential-vs-recursive layer comparison on `kwzCexBytes1`: pixel 0
of layer A after decoding frames `0, 1, 2` in sequence, and after
decoding frame 2 alone on a fresh decoder. -/
def kwzC1Run : Option (Nat × Nat) := do
  let f ← kwzParse kwzCexBytes1 kwzCexSettings
  let s ← kwzSeqDecode f 2
  let t ← kwzDecodeFrame f 2 0x7 false kwzFresh
  pure (s.layer0 0, t.layer0 0)

/-- Repeat-decode comparison on `ppmCexBytes`: pixel 0 of layer 1 after
`decodeFrame(0)` and after `decodeFrame(0)` again. -/
def ppmC2Run : Option (Nat × Nat) := do
  let f ← ppmParse ppmCexBytes
  let s1 ← ppmDecodeFrame f 0 ppmFresh
  let s2 ← ppmDecodeFrame f 0 s1
  pure (s1.layer0 0, s2.layer0 0)

/-- All-38-sentinel-frame effect on `kwzCexBytes3`: pixel 0 of layer A
after decoding frame 0, and after then calling `decodeFrame(2)` where
frame 2 stores 38 for all three layers. -/
def kwzC3Run : Option (Nat × Nat) := do
  let f ← kwzParse kwzCexBytes3 kwzCexSettings
  let s1 ← kwzDecodeFrame f 0 0x7 false kwzFresh
  let s2 ← kwzDecodeFrame f 2 0x7 false s1
  pure (s1.layer0 0, s2.layer0 0)

/-- Frame 2 of `kwzCexBytes3` stores layer size 38 for all three layers. -/
def kwzC3Sizes : Option (Nat × Nat × Nat) := do
  let f ← kwzParse kwzCexBytes3 kwzCexSettings
  pure (f.frameLayerSizes.getD 2 (0, 0, 0))

/-- A minimal PPM instance for witnesses: one keyframe (header `0x80`)
whose two 48-byte line-encoding blocks are all zero (all lines blank). -/
def ppmWitParsed : PpmParsed :=
  ⟨0x80 :: List.replicate 96 0, 0, 0, 1, 0, [0], 0, 0, 0, 0, 0, fun _ => none⟩

/-- A minimal PPM instance for witnesses whose track metadata makes the
SE1 track empty (so its effective source rate is the raw rate). -/
def ppmAudioWitParsed : PpmParsed :=
  ⟨[0], 0, 0, 1, 0, [0], 0, 0, 2, 2, 0, fun t =>
    if t = FlipnoteAudioTrack.SE1 then some (0, 0) else none⟩

/-- A minimal KWZ instance for witnesses: one frame whose three stored
layer sizes are all the 38-byte sentinel. -/
def kwzWitParsed : KwzParsed :=
  ⟨[], kwzCexSettings, 1, [0], [0], [(38, 38, 38)], 0, 0, 0, 0, 0,
    fun _ => (0, 0)⟩

/-- A garbage prior decoder state used by the sentinel witness. -/
def kwzWitSt : KwzSt := ⟨fun _ => 9, fun _ => 9, fun _ => 9, none⟩


/-! # Helper lemmas -/

lemma jsClamp_bound (x l h : Int) (hlh : l ≤ h) :
    l ≤ jsClamp x l h ∧ jsClamp x l h ≤ h := by
  unfold jsClamp
  split_ifs <;> omega

lemma mul16_bound (c : Int) (h : -2048 ≤ c ∧ c ≤ 2047) :
    -32768 ≤ c * 16 ∧ c * 16 ≤ 32767 := by omega

lemma ppmProcessNibble_bound (sample : Nat) (st : AdpcmSt) :
    -32768 ≤ (ppmProcessNibble sample st).1 ∧ (ppmProcessNibble sample st).1 ≤ 32767 :=
  jsClamp_bound _ _ _ (by decide)

lemma kwzProcess2Bit_bound (sample : Nat) (st : AdpcmSt) :
    -32768 ≤ (kwzProcess2Bit sample st).1 ∧ (kwzProcess2Bit sample st).1 ≤ 32767 :=
  mul16_bound _ (jsClamp_bound _ _ _ (by decide))

lemma kwzProcess4Bit_bound (sample : Nat) (st : AdpcmSt) :
    -32768 ≤ (kwzProcess4Bit sample st).1 ∧ (kwzProcess4Bit sample st).1 ≤ 32767 :=
  mul16_bound _ (jsClamp_bound _ _ _ (by decide))

lemma kwzByteLoop_bound (P : Int → Prop)
    (h2 : ∀ s st, P (kwzProcess2Bit s st).1)
    (h4 : ∀ s st, P (kwzProcess4Bit s st).1) :
    ∀ (fuel currByte currBit : Nat) (st : AdpcmSt) (out : List Int),
      8 - currBit ≤ fuel → (∀ x ∈ out, P x) →
      ∀ x ∈ (kwzByteLoop currByte currBit st out).1, P x := by
  intro fuel
  induction fuel with
  | zero =>
    intro cb bit st out hle hout
    rw [kwzByteLoop]
    have : ¬ bit < 8 := by omega
    simp only [this, if_false]
    exact hout
  | succ n ih =>
    intro cb bit st out hle hout
    rw [kwzByteLoop]
    by_cases hbit : bit < 8
    · simp only [hbit, if_true]
      by_cases hmode : st.stepIndex < 18 ∨ bit > 4
      · simp only [hmode, if_true]
        refine ih _ _ _ _ (by omega) ?_
        intro x hx
        rcases List.mem_append.mp hx with h | h
        · exact hout x h
        · rcases List.mem_singleton.mp h with rfl
          exact h2 _ _
      · simp only [hmode, if_false]
        refine ih _ _ _ _ (by omega) ?_
        intro x hx
        rcases List.mem_append.mp hx with h | h
        · exact hout x h
        · rcases List.mem_singleton.mp h with rfl
          exact h4 _ _
    · simp only [hbit, if_false]
      exact hout

lemma kwzAudioFold_bound (P : Int → Prop)
    (h2 : ∀ s st, P (kwzProcess2Bit s st).1)
    (h4 : ∀ s st, P (kwzProcess4Bit s st).1) :
    ∀ (src : Bytes) (acc : List Int × AdpcmSt),
      (∀ x ∈ acc.1, P x) →
      ∀ x ∈ (src.foldl (fun acc b => kwzByteLoop b 0 acc.2 acc.1) acc).1, P x := by
  intro src
  induction src with
  | nil => intro acc hacc; simpa using hacc
  | cons b rest ih =>
    intro acc hacc
    simp only [List.foldl_cons]
    exact ih _ (kwzByteLoop_bound P h2 h4 8 b 0 acc.2 acc.1 (by omega) hacc)

lemma ppmAudioFold_bound (P : Int → Prop)
    (hn : ∀ s st, P (ppmProcessNibble s st).1) :
    ∀ (src : Bytes) (acc : List Int × AdpcmSt),
      (∀ x ∈ acc.1, P x) →
      ∀ x ∈ (src.foldl ppmAudioStep acc).1, P x := by
  intro src
  induction src with
  | nil => intro acc hacc; simpa using hacc
  | cons b rest ih =>
    intro acc hacc
    simp only [List.foldl_cons]
    refine ih _ ?_
    intro x hx
    unfold ppmAudioStep at hx
    rcases List.mem_append.mp hx with h | h
    · exact hacc x h
    · rcases List.mem_cons.mp h with rfl | h'
      · exact hn _ _
      · rcases List.mem_singleton.mp h' with rfl
        exact hn _ _

/-- C5: for every input byte sequence and either decoder variant, every
PCM sample emitted by `decodeAudioTrack` lies within the signed 16-bit
range `[-32768, 32767]`: format A (PPM) emits the running predictor
clamped to `[-32768, 32767]` per 4-bit nibble, and format B (KWZ) emits
`predictor * 16` with the predictor first clamped to `[-2048, 2047]`. -/
theorem adpcm_output_in_i16_range (src : Bytes) (s : KwzSettings) :
    (∀ x ∈ ppmDecodeAudioTrackCore src, -32768 ≤ x ∧ x ≤ 32767) ∧
    (∀ x ∈ kwzDecodeAudioTrackCore s src, -32768 ≤ x ∧ x ≤ 32767) ∧
    (∀ (f : PpmParsed) (t : FlipnoteAudioTrack) (out : List Int),
      ppmDecodeAudioTrack f t = some out → ∀ x ∈ out, -32768 ≤ x ∧ x ≤ 32767) ∧
    (∀ (f : KwzParsed) (t : FlipnoteAudioTrack) (out : List Int),
      kwzDecodeAudioTrack f t = some out → ∀ x ∈ out, -32768 ≤ x ∧ x ≤ 32767) := by
  have hppm : ∀ (src : Bytes) (x : Int), x ∈ ppmDecodeAudioTrackCore src →
      -32768 ≤ x ∧ x ≤ 32767 := by
    intro src x hx
    unfold ppmDecodeAudioTrackCore at hx
    exact ppmAudioFold_bound (fun x => -32768 ≤ x ∧ x ≤ 32767)
      (fun s st => ppmProcessNibble_bound s st) src _ (by simp) x hx
  have hkwz : ∀ (s : KwzSettings) (src : Bytes) (x : Int),
      x ∈ kwzDecodeAudioTrackCore s src → -32768 ≤ x ∧ x ≤ 32767 := by
    intro s src x hx
    unfold kwzDecodeAudioTrackCore at hx
    have hx' := List.mem_of_mem_take hx
    exact kwzAudioFold_bound (fun x => -32768 ≤ x ∧ x ≤ 32767)
      (fun a st => kwzProcess2Bit_bound a st)
      (fun a st => kwzProcess4Bit_bound a st) src _ (by simp) x hx'
  refine ⟨fun x hx => hppm src x hx, fun x hx => hkwz s src x hx, ?_, ?_⟩
  · intro f t out hout x hx
    unfold ppmDecodeAudioTrack at hout
    rcases Option.map_eq_some'.mp hout with ⟨raw, _, rfl⟩
    exact hppm raw x hx
  · intro f t out hout x hx
    unfold kwzDecodeAudioTrack at hout
    rcases Option.map_eq_some'.mp hout with ⟨raw, _, rfl⟩
    exact hkwz f.settings raw x hx

/-- Witness for C5: the sample bound evaluated on a concrete two-byte
ADPCM input under both decoders. -/
theorem adpcm_output_in_i16_range_witness :
    (ppmDecodeAudioTrackCore [136, 23]).all
      (fun x => decide (-32768 ≤ x ∧ x ≤ 32767)) = true ∧
    (kwzDecodeAudioTrackCore ⟨false, false, false⟩ [136, 23]).all
      (fun x => decide (-32768 ≤ x ∧ x ≤ 32767)) = true := by
  constructor
  · exact List.all_eq_true.mpr (fun x hx => decide_eq_true
      ((adpcm_output_in_i16_range [136, 23] ⟨false, false, false⟩).1 x hx))
  · exact List.all_eq_true.mpr (fun x hx => decide_eq_true
      ((adpcm_output_in_i16_range [136, 23] ⟨false, false, false⟩).2.1 x hx))

/-- C6: the clipping-ratio function returns 0 on any non-empty all-zero
buffer and 1 on any non-empty buffer whose every sample sits at an i16
clipping bound (`≤ -32768` or `≥ 32767`). -/
theorem pcm_clipping_ratio_zero_and_one (src : List Int) (hne : src ≠ []) :
    ((∀ s ∈ src, s = 0) → pcmGetClippingRatio src = 0) ∧
    ((∀ s ∈ src, s ≤ -32768 ∨ s ≥ 32767) → pcmGetClippingRatio src = 1) := by
  constructor
  · intro h
    unfold pcmGetClippingRatio
    have hz : src.countP (fun s => decide (s ≤ -32768 ∨ s ≥ 32767)) = 0 := by
      rw [List.countP_eq_zero]
      intro a ha
      have := h a ha
      subst this
      decide
    rw [hz]
    simp
  · intro h
    unfold pcmGetClippingRatio
    have hl : src.countP (fun s => decide (s ≤ -32768 ∨ s ≥ 32767)) = src.length := by
      rw [List.countP_eq_length]
      intro a ha
      exact decide_eq_true (h a ha)
    rw [hl]
    have hlen : (src.length : Rat) ≠ 0 := by
      have h0 : src.length ≠ 0 := fun hh => hne (List.length_eq_zero.mp hh)
      exact Nat.cast_ne_zero.mpr h0
    exact div_self hlen

/-- Witness for C6: the clipping ratio evaluated on concrete all-zero and
all-clipped buffers. -/
theorem pcm_clipping_ratio_witness :
    pcmGetClippingRatio [0, 0, 0] = 0 ∧ pcmGetClippingRatio [32767, -32768] = 1 :=
  ⟨(pcm_clipping_ratio_zero_and_one [0, 0, 0] (by decide)).1 (by decide),
   (pcm_clipping_ratio_zero_and_one [32767, -32768] (by decide)).2 (by decide)⟩

lemma pcmAudioMixGo_idx_bound (dstSize : Nat) (dstOffset : Int) :
    ∀ (src : List Int) (n : Nat) (dst : List Int),
      ∀ i ∈ (pcmAudioMixGo dstSize dstOffset src n dst).2,
        dstOffset + (n : Int) ≤ i ∧ i ≤ (dstSize : Int) := by
  intro src
  induction src with
  | nil =>
    intro n dst i hi
    simp [pcmAudioMixGo] at hi
  | cons a rest ih =>
    intro n dst i hi
    rw [pcmAudioMixGo] at hi
    by_cases hbr : dstOffset + (n : Int) > (dstSize : Int)
    · simp only [hbr, if_true] at hi
      simp at hi
    · simp only [hbr, if_false] at hi
      rcases List.mem_cons.mp hi with rfl | h
      · omega
      · have := ih (n + 1) _ i h
        push_cast at this ⊢
        omega

/-- C10 (amended): with `dstOffset ≥ 0`, every store attempted by
`pcmAudioMix`'s loop targets an index `i` with `dstOffset ≤ i` and
`i ≤ dst.length` — the guard `dstOffset + n > dstSize` (rather than `≥`)
admits exactly one possibly-out-of-bounds store, at index `dst.length`,
which the JS typed array drops. -/
theorem pcm_audio_mix_store_bounds (src dst : List Int) (dstOffset : Int)
    (h0 : 0 ≤ dstOffset) :
    ∀ i ∈ pcmAudioMixWriteIdxs src dst dstOffset,
      0 ≤ i ∧ dstOffset ≤ i ∧ i ≤ (dst.length : Int) := by
  intro i hi
  unfold pcmAudioMixWriteIdxs at hi
  have := pcmAudioMixGo_idx_bound dst.length dstOffset src 0 dst i hi
  push_cast at this
  omega

/-- Witness for C10's amended bound: the attempted store indices of a
concrete mix, each within `[dstOffset, dst.length]`. -/
theorem pcm_audio_mix_store_bounds_witness :
    ((0 : Int) ∈ pcmAudioMixWriteIdxs [1, 2] [0] 0) ∧
    (0 ≤ (0 : Int) ∧ (0 : Int) ≤ 0 ∧ (0 : Int) ≤ (([0] : List Int).length : Int)) :=
  ⟨by decide, pcm_audio_mix_store_bounds [1, 2] [0] 0 (by decide) 0 (by decide)⟩

/-- Counterexample for C10 as stated: mixing a 1-sample source into an
empty destination at offset 0 attempts a store at index 0, which is not
strictly less than the destination length 0 (the guard `>` lets the
store at index `dstSize` through). -/
theorem pcm_audio_mix_oob_counterexample :
    pcmAudioMixWriteIdxs [5] [] 0 = [0] ∧
    ¬ ((0 : Int) < ((([] : List Int).length : Nat) : Int)) := by
  constructor
  · decide
  · decide

lemma jsToInt16_eq_self (x : Int) (h : -32768 ≤ x ∧ x ≤ 32767) :
    jsToInt16 x = x := by
  simp only [jsToInt16]
  split_ifs <;> omega

lemma map_range_getD (g : Nat → Int) (len i : Nat) (h : i < len) :
    ((List.range len).map g).getD i 0 = g i := by
  rw [List.getD_eq_getElem?_getD]
  simp [List.getElem?_map, List.getElem?_range, h]

lemma resample_nn_len (src : List Int) (srcFreq : Rat) (hpos : 0 < srcFreq) :
    (pcmResampleNearestNeighbour src srcFreq (2 * srcFreq)).length =
      2 * src.length := by
  simp only [pcmResampleNearestNeighbour]
  have hf : srcFreq ≠ 0 := ne_of_gt hpos
  have hdl : ((src.length : Rat) / srcFreq) * (2 * srcFreq) =
      ((2 * src.length : Nat) : Rat) := by
    push_cast
    field_simp
    ring
  rw [hdl]
  have htr : jsTrunc ((2 * src.length : Nat) : Rat) = ((2 * src.length : Nat) : Int) := by
    unfold jsTrunc
    rw [if_neg (not_lt.mpr (by positivity))]
    exact_mod_cast Int.floor_natCast _
  rw [htr, Int.toNat_natCast]
  simp

lemma resample_nn_eq (src : List Int) (srcFreq : Rat) (hpos : 0 < srcFreq) :
    pcmResampleNearestNeighbour src srcFreq (2 * srcFreq) =
      (List.range (2 * src.length)).map
        (fun p => jsToInt16 (pcmGetSample src src.length ((p / 2 : Nat) : Int))) := by
  simp only [pcmResampleNearestNeighbour]
  have hf : srcFreq ≠ 0 := ne_of_gt hpos
  have hdl : ((src.length : Rat) / srcFreq) * (2 * srcFreq) =
      ((2 * src.length : Nat) : Rat) := by
    push_cast
    field_simp
    ring
  rw [hdl]
  have htr : jsTrunc ((2 * src.length : Nat) : Rat) = ((2 * src.length : Nat) : Int) := by
    unfold jsTrunc
    rw [if_neg (not_lt.mpr (by positivity))]
    exact_mod_cast Int.floor_natCast _
  rw [htr, Int.toNat_natCast]
  apply List.map_congr_left
  intro p _
  have hadj : srcFreq / (2 * srcFreq) = (1 : Rat) / 2 := by
    field_simp
    ring
  have hfl : Int.floor ((p : Rat) * (srcFreq / (2 * srcFreq))) = ((p / 2 : Nat) : Int) := by
    rw [hadj]
    have h1 : (p : Rat) * (1 / 2) = (p : Rat) / ((2 : Nat) : Rat) := by push_cast; ring
    rw [h1, Rat.floor_natCast_div_natCast]
    omega
  rw [hfl]

lemma pcmGetSample_inBounds (src : List Int) (k : Nat) (hk : k < src.length) :
    pcmGetSample src src.length (k : Int) = src.getD k 0 := by
  unfold pcmGetSample
  rw [if_neg]
  · simp
  · omega

lemma getD_mem_of_lt (src : List Int) (k : Nat) (hk : k < src.length) :
    src.getD k 0 ∈ src := by
  rw [List.getD_eq_getElem?_getD, List.getElem?_eq_getElem hk]
  exact List.getElem_mem hk

/-- C7: resampling with equal source and target rates is the identity
(`getAudioTrackPcm` returns the decoded PCM unchanged when the effective
source rate equals the requested rate, in both parsers), and
nearest-neighbour resampling of an i16 buffer to exactly twice its source
rate yields `2 * len(src)` samples with `dst[2k] = dst[2k+1] = src[k]`. -/
theorem resample_identity_and_double_rate (src : List Int) (srcFreq : Rat)
    (hpos : 0 < srcFreq) (hi16 : ∀ x ∈ src, -32768 ≤ x ∧ x ≤ 32767)
    (fP : PpmParsed) (fK : KwzParsed) (tP tK : FlipnoteAudioTrack) (dstP dstK : Rat)
    (hP : ppmEffectiveSrcFreq fP tP = dstP) (hK : kwzEffectiveSrcFreq fK tK = dstK) :
    (pcmResampleNearestNeighbour src srcFreq (2 * srcFreq)).length = 2 * src.length ∧
    (∀ k, k < src.length →
      (pcmResampleNearestNeighbour src srcFreq (2 * srcFreq)).getD (2 * k) 0
          = src.getD k 0 ∧
      (pcmResampleNearestNeighbour src srcFreq (2 * srcFreq)).getD (2 * k + 1) 0
          = src.getD k 0) ∧
    ppmGetAudioTrackPcm fP tP dstP = ppmDecodeAudioTrack fP tP ∧
    kwzGetAudioTrackPcm fK tK dstK = kwzDecodeAudioTrack fK tK := by
  refine ⟨?_, ?_, ?_, ?_⟩
  · rw [resample_nn_eq src srcFreq hpos]
    simp
  · intro k hk
    rw [resample_nn_eq src srcFreq hpos]
    have hmem := getD_mem_of_lt src k hk
    have hid := jsToInt16_eq_self _ (hi16 _ hmem)
    constructor
    · rw [map_range_getD _ _ _ (by omega)]
      have h2 : 2 * k / 2 = k := by omega
      rw [h2, pcmGetSample_inBounds src k hk, hid]
    · rw [map_range_getD _ _ _ (by omega)]
      have h2 : (2 * k + 1) / 2 = k := by omega
      rw [h2, pcmGetSample_inBounds src k hk, hid]
  · cases h : ppmDecodeAudioTrack fP tP <;>
      simp [ppmGetAudioTrackPcm, hP, h]
  · cases h : kwzDecodeAudioTrack fK tK <;>
      simp [kwzGetAudioTrackPcm, hK, h]

/-- Witness for C7: the 2x-rate law on a concrete buffer and the
equal-rate identity on concrete decoder instances. -/
theorem resample_identity_and_double_rate_witness :
    (pcmResampleNearestNeighbour [5, 7] 4 (2 * 4)).length = 2 * ([5, 7] : List Int).length ∧
    (pcmResampleNearestNeighbour [5, 7] 4 (2 * 4)).getD (2 * 0) 0 = ([5, 7] : List Int).getD 0 0 ∧
    (pcmResampleNearestNeighbour [5, 7] 4 (2 * 4)).getD (2 * 0 + 1) 0 = ([5, 7] : List Int).getD 0 0 ∧
    ppmGetAudioTrackPcm ppmAudioWitParsed FlipnoteAudioTrack.SE1 8192 =
      ppmDecodeAudioTrack ppmAudioWitParsed FlipnoteAudioTrack.SE1 ∧
    kwzGetAudioTrackPcm kwzWitParsed FlipnoteAudioTrack.SE1 16364 =
      kwzDecodeAudioTrack kwzWitParsed FlipnoteAudioTrack.SE1 := by
  have T := resample_identity_and_double_rate [5, 7] 4 (by norm_num) (by decide)
    ppmAudioWitParsed kwzWitParsed FlipnoteAudioTrack.SE1 FlipnoteAudioTrack.SE1
    8192 16364 (by decide) (by decide)
  exact ⟨T.1, (T.2.1 0 (by decide)).1, (T.2.1 0 (by decide)).2, T.2.2.1, T.2.2.2⟩

lemma get?_isSome_of_lt (B : Bytes) (q : Nat) (h : q < B.length) :
    (B.get? q).isSome := by
  rw [List.get?_eq_getElem?, List.getElem?_eq_getElem h]
  rfl

lemma readU8_isSome (B : Bytes) (q : Nat) (h : q + 1 ≤ B.length) :
    (readU8 B q).isSome :=
  get?_isSome_of_lt B q (by omega)

lemma readU16_isSome (B : Bytes) (q : Nat) (h : q + 2 ≤ B.length) :
    (readU16 B q).isSome := by
  unfold readU16
  have h1 := get?_isSome_of_lt B q (by omega)
  have h2 := get?_isSome_of_lt B (q + 1) (by omega)
  rcases Option.isSome_iff_exists.mp h1 with ⟨a, ha⟩
  rcases Option.isSome_iff_exists.mp h2 with ⟨b, hb⟩
  rw [ha, hb]
  rfl

lemma readU32_isSome (B : Bytes) (q : Nat) (h : q + 4 ≤ B.length) :
    (readU32 B q).isSome := by
  unfold readU32
  have h1 := get?_isSome_of_lt B q (by omega)
  have h2 := get?_isSome_of_lt B (q + 1) (by omega)
  have h3 := get?_isSome_of_lt B (q + 2) (by omega)
  have h4 := get?_isSome_of_lt B (q + 3) (by omega)
  rcases Option.isSome_iff_exists.mp h1 with ⟨a, ha⟩
  rcases Option.isSome_iff_exists.mp h2 with ⟨b, hb⟩
  rcases Option.isSome_iff_exists.mp h3 with ⟨c, hc⟩
  rcases Option.isSome_iff_exists.mp h4 with ⟨d, hd⟩
  rw [ha, hb, hc, hd]
  rfl

lemma dsReadRaw_bounds (w : Nat) (s : DataStream) :
    (dsReadRaw w s).isSome ↔
      (0 ≤ s.pointer ∧ s.pointer + (w : Int) ≤ (s.bytes.length : Int)) := by
  unfold dsReadRaw
  split_ifs with h <;> simp [h]

lemma dsReadRaw_some (w : Nat) (s : DataStream) (bs : Bytes) (s' : DataStream)
    (h : dsReadRaw w s = some (bs, s')) :
    s'.pointer = s.pointer + (w : Int) ∧ s'.bytes = s.bytes ∧
      0 ≤ s.pointer ∧ s.pointer + (w : Int) ≤ (s.bytes.length : Int) := by
  unfold dsReadRaw at h
  split_ifs at h with hcond
  · cases h
    exact ⟨rfl, rfl, hcond.1, hcond.2⟩

lemma readI8_isSome (B : Bytes) (q : Nat) (h : q + 1 ≤ B.length) :
    (readI8 B q).isSome := by
  unfold readI8
  rcases Option.isSome_iff_exists.mp (readU8_isSome B q h) with ⟨v, hv⟩
  rw [hv]
  rfl

lemma readI16_isSome (B : Bytes) (q : Nat) (h : q + 2 ≤ B.length) :
    (readI16 B q).isSome := by
  unfold readI16
  rcases Option.isSome_iff_exists.mp (readU16_isSome B q h) with ⟨v, hv⟩
  rw [hv]
  rfl

lemma readI32_isSome (B : Bytes) (q : Nat) (h : q + 4 ≤ B.length) :
    (readI32 B q).isSome := by
  unfold readI32
  rcases Option.isSome_iff_exists.mp (readU32_isSome B q h) with ⟨v, hv⟩
  rw [hv]
  rfl

lemma dsReadUint8_spec (s : DataStream) :
    ((dsReadUint8 s).isSome ↔
      0 ≤ s.pointer ∧ s.pointer + (1 : Int) ≤ (s.bytes.length : Int)) ∧
    (∀ v s', dsReadUint8 s = some (v, s') →
      s'.pointer = s.pointer + (1 : Int) ∧ s'.bytes = s.bytes ∧ dsWithinBounds s') := by
  cases hraw : dsReadRaw 1 s with
  | none =>
    have hb := dsReadRaw_bounds 1 s
    rw [hraw] at hb
    simp only [Option.isSome_none, false_iff] at hb
    push_cast at hb
    constructor
    · simp only [dsReadUint8, hraw, Option.bind_eq_bind, Option.none_bind,
        Option.isSome_none, false_iff]
      push_cast
      exact hb
    · intro v s' h
      simp [dsReadUint8, hraw] at h
  | some pr =>
    obtain ⟨bs, st'⟩ := pr
    have hsp := dsReadRaw_some 1 s bs st' hraw
    have hrd : (readU8 s.bytes s.pointer.toNat).isSome :=
      readU8_isSome s.bytes s.pointer.toNat (by omega)
    rcases Option.isSome_iff_exists.mp hrd with ⟨v0, hv0⟩
    constructor
    · simp only [dsReadUint8, hraw, hv0, Option.bind_eq_bind, Option.some_bind,
        Option.pure_def, Option.isSome_some, true_iff]
      refine ⟨hsp.2.2.1, ?_⟩
      have h2 := hsp.2.2.2
      push_cast at h2 ⊢
      omega
    · intro v s' h
      simp only [dsReadUint8, hraw, hv0, Option.bind_eq_bind, Option.some_bind,
        Option.pure_def, Option.some.injEq, Prod.mk.injEq] at h
      obtain ⟨hv, hs'⟩ := h
      subst hs'
      have h1 := hsp.1
      have h2 := hsp.2.2.2
      have h0 := hsp.2.2.1
      push_cast at h1 h2
      refine ⟨h1, hsp.2.1, ?_⟩
      unfold dsWithinBounds
      rw [h1, hsp.2.1]
      omega

lemma dsReadInt8_spec (s : DataStream) :
    ((dsReadInt8 s).isSome ↔
      0 ≤ s.pointer ∧ s.pointer + (1 : Int) ≤ (s.bytes.length : Int)) ∧
    (∀ v s', dsReadInt8 s = some (v, s') →
      s'.pointer = s.pointer + (1 : Int) ∧ s'.bytes = s.bytes ∧ dsWithinBounds s') := by
  cases hraw : dsReadRaw 1 s with
  | none =>
    have hb := dsReadRaw_bounds 1 s
    rw [hraw] at hb
    simp only [Option.isSome_none, false_iff] at hb
    push_cast at hb
    constructor
    · simp only [dsReadInt8, hraw, Option.bind_eq_bind, Option.none_bind,
        Option.isSome_none, false_iff]
      push_cast
      exact hb
    · intro v s' h
      simp [dsReadInt8, hraw] at h
  | some pr =>
    obtain ⟨bs, st'⟩ := pr
    have hsp := dsReadRaw_some 1 s bs st' hraw
    have hrd : (readI8 s.bytes s.pointer.toNat).isSome :=
      readI8_isSome s.bytes s.pointer.toNat (by omega)
    rcases Option.isSome_iff_exists.mp hrd with ⟨v0, hv0⟩
    constructor
    · simp only [dsReadInt8, hraw, hv0, Option.bind_eq_bind, Option.some_bind,
        Option.pure_def, Option.isSome_some, true_iff]
      refine ⟨hsp.2.2.1, ?_⟩
      have h2 := hsp.2.2.2
      push_cast at h2 ⊢
      omega
    · intro v s' h
      simp only [dsReadInt8, hraw, hv0, Option.bind_eq_bind, Option.some_bind,
        Option.pure_def, Option.some.injEq, Prod.mk.injEq] at h
      obtain ⟨hv, hs'⟩ := h
      subst hs'
      have h1 := hsp.1
      have h2 := hsp.2.2.2
      have h0 := hsp.2.2.1
      push_cast at h1 h2
      refine ⟨h1, hsp.2.1, ?_⟩
      unfold dsWithinBounds
      rw [h1, hsp.2.1]
      omega

lemma dsReadUint16_spec (s : DataStream) :
    ((dsReadUint16 s).isSome ↔
      0 ≤ s.pointer ∧ s.pointer + (2 : Int) ≤ (s.bytes.length : Int)) ∧
    (∀ v s', dsReadUint16 s = some (v, s') →
      s'.pointer = s.pointer + (2 : Int) ∧ s'.bytes = s.bytes ∧ dsWithinBounds s') := by
  cases hraw : dsReadRaw 2 s with
  | none =>
    have hb := dsReadRaw_bounds 2 s
    rw [hraw] at hb
    simp only [Option.isSome_none, false_iff] at hb
    push_cast at hb
    constructor
    · simp only [dsReadUint16, hraw, Option.bind_eq_bind, Option.none_bind,
        Option.isSome_none, false_iff]
      push_cast
      exact hb
    · intro v s' h
      simp [dsReadUint16, hraw] at h
  | some pr =>
    obtain ⟨bs, st'⟩ := pr
    have hsp := dsReadRaw_some 2 s bs st' hraw
    have hrd : (readU16 s.bytes s.pointer.toNat).isSome :=
      readU16_isSome s.bytes s.pointer.toNat (by omega)
    rcases Option.isSome_iff_exists.mp hrd with ⟨v0, hv0⟩
    constructor
    · simp only [dsReadUint16, hraw, hv0, Option.bind_eq_bind, Option.some_bind,
        Option.pure_def, Option.isSome_some, true_iff]
      refine ⟨hsp.2.2.1, ?_⟩
      have h2 := hsp.2.2.2
      push_cast at h2 ⊢
      omega
    · intro v s' h
      simp only [dsReadUint16, hraw, hv0, Option.bind_eq_bind, Option.some_bind,
        Option.pure_def, Option.some.injEq, Prod.mk.injEq] at h
      obtain ⟨hv, hs'⟩ := h
      subst hs'
      have h1 := hsp.1
      have h2 := hsp.2.2.2
      have h0 := hsp.2.2.1
      push_cast at h1 h2
      refine ⟨h1, hsp.2.1, ?_⟩
      unfold dsWithinBounds
      rw [h1, hsp.2.1]
      omega

lemma dsReadInt16_spec (s : DataStream) :
    ((dsReadInt16 s).isSome ↔
      0 ≤ s.pointer ∧ s.pointer + (2 : Int) ≤ (s.bytes.length : Int)) ∧
    (∀ v s', dsReadInt16 s = some (v, s') →
      s'.pointer = s.pointer + (2 : Int) ∧ s'.bytes = s.bytes ∧ dsWithinBounds s') := by
  cases hraw : dsReadRaw 2 s with
  | none =>
    have hb := dsReadRaw_bounds 2 s
    rw [hraw] at hb
    simp only [Option.isSome_none, false_iff] at hb
    push_cast at hb
    constructor
    · simp only [dsReadInt16, hraw, Option.bind_eq_bind, Option.none_bind,
        Option.isSome_none, false_iff]
      push_cast
      exact hb
    · intro v s' h
      simp [dsReadInt16, hraw] at h
  | some pr =>
    obtain ⟨bs, st'⟩ := pr
    have hsp := dsReadRaw_some 2 s bs st' hraw
    have hrd : (readI16 s.bytes s.pointer.toNat).isSome :=
      readI16_isSome s.bytes s.pointer.toNat (by omega)
    rcases Option.isSome_iff_exists.mp hrd with ⟨v0, hv0⟩
    constructor
    · simp only [dsReadInt16, hraw, hv0, Option.bind_eq_bind, Option.some_bind,
        Option.pure_def, Option.isSome_some, true_iff]
      refine ⟨hsp.2.2.1, ?_⟩
      have h2 := hsp.2.2.2
      push_cast at h2 ⊢
      omega
    · intro v s' h
      simp only [dsReadInt16, hraw, hv0, Option.bind_eq_bind, Option.some_bind,
        Option.pure_def, Option.some.injEq, Prod.mk.injEq] at h
      obtain ⟨hv, hs'⟩ := h
      subst hs'
      have h1 := hsp.1
      have h2 := hsp.2.2.2
      have h0 := hsp.2.2.1
      push_cast at h1 h2
      refine ⟨h1, hsp.2.1, ?_⟩
      unfold dsWithinBounds
      rw [h1, hsp.2.1]
      omega

lemma dsReadUint32_spec (s : DataStream) :
    ((dsReadUint32 s).isSome ↔
      0 ≤ s.pointer ∧ s.pointer + (4 : Int) ≤ (s.bytes.length : Int)) ∧
    (∀ v s', dsReadUint32 s = some (v, s') →
      s'.pointer = s.pointer + (4 : Int) ∧ s'.bytes = s.bytes ∧ dsWithinBounds s') := by
  cases hraw : dsReadRaw 4 s with
  | none =>
    have hb := dsReadRaw_bounds 4 s
    rw [hraw] at hb
    simp only [Option.isSome_none, false_iff] at hb
    push_cast at hb
    constructor
    · simp only [dsReadUint32, hraw, Option.bind_eq_bind, Option.none_bind,
        Option.isSome_none, false_iff]
      push_cast
      exact hb
    · intro v s' h
      simp [dsReadUint32, hraw] at h
  | some pr =>
    obtain ⟨bs, st'⟩ := pr
    have hsp := dsReadRaw_some 4 s bs st' hraw
    have hrd : (readU32 s.bytes s.pointer.toNat).isSome :=
      readU32_isSome s.bytes s.pointer.toNat (by omega)
    rcases Option.isSome_iff_exists.mp hrd with ⟨v0, hv0⟩
    constructor
    · simp only [dsReadUint32, hraw, hv0, Option.bind_eq_bind, Option.some_bind,
        Option.pure_def, Option.isSome_some, true_iff]
      refine ⟨hsp.2.2.1, ?_⟩
      have h2 := hsp.2.2.2
      push_cast at h2 ⊢
      omega
    · intro v s' h
      simp only [dsReadUint32, hraw, hv0, Option.bind_eq_bind, Option.some_bind,
        Option.pure_def, Option.some.injEq, Prod.mk.injEq] at h
      obtain ⟨hv, hs'⟩ := h
      subst hs'
      have h1 := hsp.1
      have h2 := hsp.2.2.2
      have h0 := hsp.2.2.1
      push_cast at h1 h2
      refine ⟨h1, hsp.2.1, ?_⟩
      unfold dsWithinBounds
      rw [h1, hsp.2.1]
      omega

lemma dsReadInt32_spec (s : DataStream) :
    ((dsReadInt32 s).isSome ↔
      0 ≤ s.pointer ∧ s.pointer + (4 : Int) ≤ (s.bytes.length : Int)) ∧
    (∀ v s', dsReadInt32 s = some (v, s') →
      s'.pointer = s.pointer + (4 : Int) ∧ s'.bytes = s.bytes ∧ dsWithinBounds s') := by
  cases hraw : dsReadRaw 4 s with
  | none =>
    have hb := dsReadRaw_bounds 4 s
    rw [hraw] at hb
    simp only [Option.isSome_none, false_iff] at hb
    push_cast at hb
    constructor
    · simp only [dsReadInt32, hraw, Option.bind_eq_bind, Option.none_bind,
        Option.isSome_none, false_iff]
      push_cast
      exact hb
    · intro v s' h
      simp [dsReadInt32, hraw] at h
  | some pr =>
    obtain ⟨bs, st'⟩ := pr
    have hsp := dsReadRaw_some 4 s bs st' hraw
    have hrd : (readI32 s.bytes s.pointer.toNat).isSome :=
      readI32_isSome s.bytes s.pointer.toNat (by omega)
    rcases Option.isSome_iff_exists.mp hrd with ⟨v0, hv0⟩
    constructor
    · simp only [dsReadInt32, hraw, hv0, Option.bind_eq_bind, Option.some_bind,
        Option.pure_def, Option.isSome_some, true_iff]
      refine ⟨hsp.2.2.1, ?_⟩
      have h2 := hsp.2.2.2
      push_cast at h2 ⊢
      omega
    · intro v s' h
      simp only [dsReadInt32, hraw, hv0, Option.bind_eq_bind, Option.some_bind,
        Option.pure_def, Option.some.injEq, Prod.mk.injEq] at h
      obtain ⟨hv, hs'⟩ := h
      subst hs'
      have h1 := hsp.1
      have h2 := hsp.2.2.2
      have h0 := hsp.2.2.1
      push_cast at h1 h2
      refine ⟨h1, hsp.2.1, ?_⟩
      unfold dsWithinBounds
      rw [h1, hsp.2.1]
      omega

/-- C8 (amended): every typed `DataStream` read succeeds exactly when it
lies within `[0, byteLength]`, advances the offset by exactly the width
of the value read on success (leaving the pointer within bounds), and
fails with a bounds error rather than returning data otherwise. `seek`
itself performs no bounds check (see the counterexample), so the
`0 ≤ offset ≤ length` invariant is maintained by the reads, not by seek. -/
theorem datastream_reads_checked (s : DataStream) :
    (((dsReadUint8 s).isSome ↔
        0 ≤ s.pointer ∧ s.pointer + (1 : Int) ≤ (s.bytes.length : Int)) ∧
      (∀ v s', dsReadUint8 s = some (v, s') →
        s'.pointer = s.pointer + (1 : Int) ∧ s'.bytes = s.bytes ∧ dsWithinBounds s')) ∧
    (((dsReadInt8 s).isSome ↔
        0 ≤ s.pointer ∧ s.pointer + (1 : Int) ≤ (s.bytes.length : Int)) ∧
      (∀ v s', dsReadInt8 s = some (v, s') →
        s'.pointer = s.pointer + (1 : Int) ∧ s'.bytes = s.bytes ∧ dsWithinBounds s')) ∧
    (((dsReadUint16 s).isSome ↔
        0 ≤ s.pointer ∧ s.pointer + (2 : Int) ≤ (s.bytes.length : Int)) ∧
      (∀ v s', dsReadUint16 s = some (v, s') →
        s'.pointer = s.pointer + (2 : Int) ∧ s'.bytes = s.bytes ∧ dsWithinBounds s')) ∧
    (((dsReadInt16 s).isSome ↔
        0 ≤ s.pointer ∧ s.pointer + (2 : Int) ≤ (s.bytes.length : Int)) ∧
      (∀ v s', dsReadInt16 s = some (v, s') →
        s'.pointer = s.pointer + (2 : Int) ∧ s'.bytes = s.bytes ∧ dsWithinBounds s')) ∧
    (((dsReadUint32 s).isSome ↔
        0 ≤ s.pointer ∧ s.pointer + (4 : Int) ≤ (s.bytes.length : Int)) ∧
      (∀ v s', dsReadUint32 s = some (v, s') →
        s'.pointer = s.pointer + (4 : Int) ∧ s'.bytes = s.bytes ∧ dsWithinBounds s')) ∧
    (((dsReadInt32 s).isSome ↔
        0 ≤ s.pointer ∧ s.pointer + (4 : Int) ≤ (s.bytes.length : Int)) ∧
      (∀ v s', dsReadInt32 s = some (v, s') →
        s'.pointer = s.pointer + (4 : Int) ∧ s'.bytes = s.bytes ∧ dsWithinBounds s')) :=
  ⟨dsReadUint8_spec s, dsReadInt8_spec s, dsReadUint16_spec s,
   dsReadInt16_spec s, dsReadUint32_spec s, dsReadInt32_spec s⟩

/-- Witness for C8's amended read contract on a concrete stream. -/
theorem datastream_reads_checked_witness :
    dsReadUint16 (DataStream.mk [7, 8, 9] 1) =
      some (8 + 256 * 9, DataStream.mk [7, 8, 9] 3) ∧
    (DataStream.mk [7, 8, 9] 3).pointer =
      (DataStream.mk [7, 8, 9] 1).pointer + (2 : Int) ∧
    dsWithinBounds (DataStream.mk [7, 8, 9] 3) :=
  ⟨by decide,
   ((datastream_reads_checked (DataStream.mk [7, 8, 9] 1)).2.2.1.2
     (8 + 256 * 9) (DataStream.mk [7, 8, 9] 3) (by decide)).1,
   ((datastream_reads_checked (DataStream.mk [7, 8, 9] 1)).2.2.1.2
     (8 + 256 * 9) (DataStream.mk [7, 8, 9] 3) (by decide)).2.2⟩

/-- Counterexample for C8 as stated: `DataStream.seek` performs no bounds
check, so seeking to offset 10 in a 4-byte stream leaves the cursor at
rest with `pointer = 10`, violating `0 ≤ offset ≤ length`. -/
theorem datastream_seek_unchecked_counterexample :
    (dsSeek (dsInit [0, 0, 0, 0]) 10 SeekMode.begin).pointer = 10 ∧
    ¬ dsWithinBounds (dsSeek (dsInit [0, 0, 0, 0]) 10 SeekMode.begin) := by
  constructor
  · decide
  · decide

lemma getD_lt_256 (B : Bytes) (hB : ∀ b ∈ B, b < 256) (i : Nat) :
    B.getD i 0 < 256 := by
  by_cases h : i < B.length
  · refine hB _ ?_
    rw [List.getD_eq_getElem?_getD, List.getElem?_eq_getElem h]
    exact List.getElem_mem h
  · rw [List.getD_eq_getElem?_getD, List.getElem?_eq_none (by omega)]
    decide

lemma lor_eq_add_shift (H b k : Nat) (hb : b < 2 ^ k) :
    (H <<< k) ||| b = 2 ^ k * H + b := by
  rw [Nat.shiftLeft_eq, Nat.mul_comm]
  exact (Nat.mul_add_lt_is_or hb H).symm

lemma parseSourceMagic_eq (B : Bytes) (hB : ∀ b ∈ B, b < 256) :
    parseSourceMagic B =
      2 ^ 24 * B.getD 0 0 + 2 ^ 16 * B.getD 1 0 + 2 ^ 8 * B.getD 2 0 + B.getD 3 0 := by
  have h0 := getD_lt_256 B hB 0
  have h1 := getD_lt_256 B hB 1
  have h2 := getD_lt_256 B hB 2
  have h3 := getD_lt_256 B hB 3
  unfold parseSourceMagic
  rw [Nat.lor_assoc, Nat.lor_assoc]
  rw [lor_eq_add_shift _ _ 8 (by omega)]
  rw [lor_eq_add_shift _ _ 16 (by omega)]
  rw [lor_eq_add_shift _ _ 24 (by omega)]
  ring

lemma and_mask_low_zero (b : Nat) (hb : b < 256) : b &&& 0xFFFFFF00 = 0 := by
  have hM : (0xFFFFFF00 : Nat) = 0xFFFFFF <<< 8 := by decide
  rw [hM]
  apply Nat.eq_of_testBit_eq
  intro j
  rw [Nat.testBit_and, Nat.testBit_shiftLeft, Nat.zero_testBit]
  by_cases hj : 8 ≤ j
  · have : b.testBit j = false :=
      Nat.testBit_lt_two_pow (lt_of_lt_of_le hb (by
        calc (256 : Nat) = 2 ^ 8 := by decide
        _ ≤ 2 ^ j := Nat.pow_le_pow_right (by decide) hj))
    simp [this]
  · simp [hj]

lemma and_mask_high (H : Nat) (hH : H < 2 ^ 24) :
    (2 ^ 8 * H) &&& 0xFFFFFF00 = 2 ^ 8 * H := by
  have hM : (0xFFFFFF00 : Nat) = 0xFFFFFF <<< 8 := by decide
  rw [hM]
  apply Nat.eq_of_testBit_eq
  intro j
  rw [Nat.testBit_and, Nat.testBit_shiftLeft, Nat.testBit_mul_pow_two]
  by_cases hj : 8 ≤ j
  · have hd : decide (j ≥ 8) = true := by simpa using hj
    simp only [hd, Bool.true_and]
    by_cases hlt : j - 8 < 24
    · have : (0xFFFFFF : Nat).testBit (j - 8) = true := by
        have : (0xFFFFFF : Nat) = 2 ^ 24 - 1 := by decide
        rw [this, Nat.testBit_two_pow_sub_one]
        simpa using hlt
      simp [this]
    · have : H.testBit (j - 8) = false :=
        Nat.testBit_lt_two_pow (lt_of_lt_of_le hH
          (Nat.pow_le_pow_right (by decide) (by omega)))
      simp [this]
  · simp [hj]

lemma magic_mask_eq (b0 b1 b2 b3 : Nat) (h0 : b0 < 256) (h1 : b1 < 256)
    (h2 : b2 < 256) (h3 : b3 < 256) :
    (2 ^ 24 * b0 + 2 ^ 16 * b1 + 2 ^ 8 * b2 + b3) &&& 0xFFFFFF00 =
      2 ^ 24 * b0 + 2 ^ 16 * b1 + 2 ^ 8 * b2 := by
  have hsum : 2 ^ 24 * b0 + 2 ^ 16 * b1 + 2 ^ 8 * b2 + b3 =
      2 ^ 8 * (2 ^ 16 * b0 + 2 ^ 8 * b1 + b2) + b3 := by ring
  rw [hsum, Nat.mul_add_lt_is_or h3, Nat.and_distrib_right,
    and_mask_low_zero b3 h3, and_mask_high _ (by omega), Nat.or_zero]
  ring

/-- **C9**: `parseSource`'s sniffing looks only at the first 4 bytes of the
buffer; the magic `PARA` (0x50415241) selects the PPM decoder, a first-3-byte
`KFH` prefix selects the KWZ decoder, and any buffer matching neither is
rejected with an unrecognized-format error before any decoder is constructed. -/
theorem parse_source_sniffing (B : Bytes) (hB : ∀ b ∈ B, b < 256)
    (ks : KwzSettings) :
    (∀ B' : Bytes, (∀ i, i < 4 → B.getD i 0 = B'.getD i 0) →
      parseSourceSniff B = parseSourceSniff B') ∧
    (parseSourceSniff B = SniffResult.ppm ↔
      (B.getD 0 0 = 0x50 ∧ B.getD 1 0 = 0x41 ∧ B.getD 2 0 = 0x52 ∧
        B.getD 3 0 = 0x41)) ∧
    (parseSourceSniff B = SniffResult.kwz ↔
      (B.getD 0 0 = 0x4B ∧ B.getD 1 0 = 0x46 ∧ B.getD 2 0 = 0x48)) ∧
    (parseSourceSniff B = SniffResult.unrecognized ↔
      parseSource B ks = Except.error ParseError.unrecognizedFormat) := by
  have h0 := getD_lt_256 B hB 0
  have h1 := getD_lt_256 B hB 1
  have h2 := getD_lt_256 B hB 2
  have h3 := getD_lt_256 B hB 3
  have hm := parseSourceMagic_eq B hB
  refine ⟨?_, ?_, ?_, ?_⟩
  · intro B' h
    unfold parseSourceSniff parseSourceMagic
    rw [h 0 (by omega), h 1 (by omega), h 2 (by omega), h 3 (by omega)]
  · simp only [parseSourceSniff]
    rw [hm]
    split_ifs with hA hK
    · exact iff_of_true rfl (by omega)
    · refine iff_of_false (by decide) ?_
      rintro ⟨e0, e1, e2, e3⟩
      exact hA (by omega)
    · refine iff_of_false (by decide) ?_
      rintro ⟨e0, e1, e2, e3⟩
      exact hA (by omega)
  · simp only [parseSourceSniff]
    rw [hm, magic_mask_eq _ _ _ _ h0 h1 h2 h3]
    split_ifs with hA hK
    · refine iff_of_false (by decide) ?_
      rintro ⟨e0, e1, e2⟩
      omega
    · exact iff_of_true rfl (by omega)
    · refine iff_of_false (by decide) ?_
      rintro ⟨e0, e1, e2⟩
      exact hK (by omega)
  · unfold parseSource
    cases hs : parseSourceSniff B
    · refine iff_of_false (by decide) ?_
      intro h
      cases hpp : ppmParse B <;> rw [hpp] at h <;> simp at h
    · refine iff_of_false (by decide) ?_
      intro h
      cases hkp : kwzParse B ks <;> rw [hkp] at h <;> simp at h
    · exact iff_of_true rfl rfl

/-- Witness for C9: `PARA` bytes sniff as PPM, `KFH3` bytes sniff as KWZ,
and an unrecognized buffer is rejected by `parseSource`. -/
theorem parse_source_sniffing_witness :
    ((∀ b ∈ ([0x50, 0x41, 0x52, 0x41] : Bytes), b < 256) ∧
      parseSourceSniff [0x50, 0x41, 0x52, 0x41] = SniffResult.ppm) ∧
    parseSourceSniff [0x4B, 0x46, 0x48, 0x33] = SniffResult.kwz ∧
    parseSource [1, 2, 3, 4] kwzCexSettings =
      Except.error ParseError.unrecognizedFormat :=
  ⟨⟨by decide,
    ((parse_source_sniffing [0x50, 0x41, 0x52, 0x41] (by decide)
      kwzCexSettings).2.1).mpr (by decide)⟩,
   ((parse_source_sniffing [0x4B, 0x46, 0x48, 0x33] (by decide)
      kwzCexSettings).2.2.1).mpr (by decide),
   ((parse_source_sniffing [1, 2, 3, 4] (by decide)
      kwzCexSettings).2.2.2).mp (by decide)⟩

/-! ## C4: bit-cursor correctness -/

lemma get?_eq_getD_of_lt (B : Bytes) (p : Nat) (h : p < B.length) :
    B.get? p = some (B.getD p 0) := by
  rw [List.get?_eq_getElem?, List.getElem?_eq_getElem h,
    List.getD_eq_getElem?_getD, List.getElem?_eq_getElem h]
  rfl

lemma readU16_eq (B : Bytes) (q : Nat) (h : q + 2 ≤ B.length) :
    readU16 B q = some (B.getD q 0 + 256 * B.getD (q + 1) 0) := by
  unfold readU16
  rw [get?_eq_getD_of_lt B q (by omega), get?_eq_getD_of_lt B (q + 1) (by omega)]
  rfl

lemma wordAt_lt (B : Bytes) (hB : ∀ b ∈ B, b < 256) (s0 k : Nat) :
    wordAt B s0 k < 65536 := by
  have h1 := getD_lt_256 B hB (s0 + 2 * k)
  have h2 := getD_lt_256 B hB (s0 + 2 * k + 1)
  unfold wordAt
  omega

lemma wordsVal_lt (B : Bytes) (hB : ∀ b ∈ B, b < 256) (s0 : Nat) :
    ∀ w, wordsVal B s0 w < 2 ^ (16 * w)
  | 0 => by simp [wordsVal]
  | w + 1 => by
    have h1 := wordsVal_lt B hB s0 w
    have h2 := wordAt_lt B hB s0 w
    have hsplit : 2 ^ (16 * (w + 1)) = 65536 * 2 ^ (16 * w) := by
      rw [Nat.mul_add, pow_add]
      ring
    simp only [wordsVal]
    rw [hsplit]
    have h3 := Nat.mul_le_mul_right (2 ^ (16 * w))
      (show wordAt B s0 w ≤ 65535 by omega)
    omega

lemma div_pow_add_mul (a m c e : Nat) (hce : c ≤ e) :
    (a + m * 2 ^ e) / 2 ^ c = a / 2 ^ c + m * 2 ^ (e - c) := by
  have h : m * 2 ^ e = m * 2 ^ (e - c) * 2 ^ c := by
    rw [mul_assoc, ← pow_add]
    congr 2
    omega
  rw [h, Nat.add_mul_div_right _ _ (Nat.two_pow_pos c)]

lemma mod_pow_add_mul (x m e n : Nat) (hne : n ≤ e) :
    (x + m * 2 ^ e) % 2 ^ n = x % 2 ^ n := by
  have h : m * 2 ^ e = m * 2 ^ (e - n) * 2 ^ n := by
    rw [mul_assoc, ← pow_add]
    congr 2
    omega
  rw [h, Nat.add_mul_mod_self_right]

lemma wordsVal_split (B : Bytes) (s0 : Nat) :
    ∀ j k, ∃ m, wordsVal B s0 (k + j) = wordsVal B s0 k + m * 2 ^ (16 * k)
  | 0, k => ⟨0, by simp⟩
  | j + 1, k => by
    obtain ⟨m, hm⟩ := wordsVal_split B s0 j k
    refine ⟨m + wordAt B s0 (k + j) * 2 ^ (16 * j), ?_⟩
    have he : k + (j + 1) = (k + j) + 1 := by omega
    rw [he]
    simp only [wordsVal]
    rw [hm]
    have hp : (2 : Nat) ^ (16 * (k + j)) = 2 ^ (16 * j) * 2 ^ (16 * k) := by
      rw [← pow_add]
      congr 1
      ring
    rw [hp]
    ring

lemma bits_agree_le (B : Bytes) (s0 c n k k' : Nat) (hkk : k ≤ k')
    (hk : c + n ≤ 16 * k) :
    wordsVal B s0 k' / 2 ^ c % 2 ^ n = wordsVal B s0 k / 2 ^ c % 2 ^ n := by
  obtain ⟨m, hm⟩ := wordsVal_split B s0 (k' - k) k
  rw [show k + (k' - k) = k' from by omega] at hm
  rw [hm, div_pow_add_mul _ _ _ _ (by omega), mod_pow_add_mul _ _ _ _ (by omega)]

lemma bits_agree (B : Bytes) (s0 c n k k' : Nat)
    (hk : c + n ≤ 16 * k) (hk' : c + n ≤ 16 * k') :
    wordsVal B s0 k / 2 ^ c % 2 ^ n = wordsVal B s0 k' / 2 ^ c % 2 ^ n := by
  rcases Nat.le_total k k' with h | h
  · exact (bits_agree_le B s0 c n k k' h hk).symm
  · exact bits_agree_le B s0 c n k' k h hk'

/-- Reachability invariant of the bit cursor: after consuming `c` stream
bits from a reset at byte `s0`, the cursor has pulled `w` whole words
covering the consumed bits with at most 15 bits of lookahead, the deficit
counter `bitIndex` is `16 - (16 w - c)`, and the accumulator holds the
unconsumed pulled bits. -/
def BitInv (B : Bytes) (s0 c : Nat) (st : BitSt) : Prop :=
  ∃ w : Nat, st.p = s0 + 2 * w ∧ c ≤ 16 * w ∧ 16 * w ≤ c + 15 ∧
    st.bitIndex = 16 - ((16 * w : Int) - (c : Int)) ∧
    st.bitValue = wordsVal B s0 w / 2 ^ c

lemma kwzReadBits_refill (B : Bytes) (num : Nat) (st : BitSt) (nb : Nat)
    (hcond : st.bitIndex + (num : Int) > 16)
    (hread : readU16 B st.p = some nb) :
    kwzReadBits B num st =
      some ((st.bitValue ||| (nb <<< ((16 : Int) - st.bitIndex).toNat)) &&& BITMASKS num,
        ⟨st.p + 2, (st.bitIndex - 16) + (num : Int),
          (st.bitValue ||| (nb <<< ((16 : Int) - st.bitIndex).toNat)) >>> num⟩) := by
  unfold kwzReadBits
  rw [if_pos hcond, hread]
  rfl

lemma kwzReadBits_norefill (B : Bytes) (num : Nat) (st : BitSt)
    (hcond : ¬(st.bitIndex + (num : Int) > 16)) :
    kwzReadBits B num st =
      some (st.bitValue &&& BITMASKS num,
        ⟨st.p, st.bitIndex + (num : Int), st.bitValue >>> num⟩) := by
  unfold kwzReadBits
  rw [if_neg hcond]
  rfl

lemma kwz_readBits_spec (B : Bytes) (hB : ∀ b ∈ B, b < 256) (s0 c num : Nat)
    (st : BitSt) (hinv : BitInv B s0 c st) (h1 : 1 ≤ num) (h16 : num ≤ 16)
    (hlen : s0 + 2 * ((c + num + 15) / 16) ≤ B.length) :
    ∃ st', kwzReadBits B num st =
        some (if num ≤ 15 then nextBitsVal B s0 c num else 0, st') ∧
      BitInv B s0 (c + num) st' := by
  obtain ⟨w, hp, hcw, hw15, hbi, hbv⟩ := hinv
  have hWstar : c + num ≤ 16 * ((c + num + 15) / 16) := by omega
  by_cases hrefill : 16 * w < c + num
  · -- refill path
    have hcond : st.bitIndex + (num : Int) > 16 := by
      rw [hbi]
      push_cast
      omega
    have hwlen : st.p + 2 ≤ B.length := by
      have : w + 1 ≤ (c + num + 15) / 16 := by omega
      omega
    have hword : B.getD st.p 0 + 256 * B.getD (st.p + 1) 0 = wordAt B s0 w := by
      unfold wordAt
      rw [hp]
    have hread : readU16 B st.p = some (wordAt B s0 w) := by
      rw [readU16_eq B st.p hwlen, hword]
    have hshift : ((16 : Int) - st.bitIndex).toNat = 16 * w - c := by
      rw [hbi]
      omega
    have hlt : wordsVal B s0 w / 2 ^ c < 2 ^ (16 * w - c) := by
      apply Nat.div_lt_of_lt_mul
      rw [← pow_add, show c + (16 * w - c) = 16 * w from by omega]
      exact wordsVal_lt B hB s0 w
    have hv1 : st.bitValue ||| (wordAt B s0 w <<< ((16 : Int) - st.bitIndex).toNat) =
        wordsVal B s0 (w + 1) / 2 ^ c := by
      rw [hshift, hbv, Nat.shiftLeft_eq,
        show wordAt B s0 w * 2 ^ (16 * w - c) = 2 ^ (16 * w - c) * wordAt B s0 w
          from mul_comm _ _,
        Nat.lor_comm, ← Nat.mul_add_lt_is_or hlt]
      simp only [wordsVal]
      rw [div_pow_add_mul _ _ _ _ (show c ≤ 16 * w from hcw)]
      ring
    rw [kwzReadBits_refill B num st (wordAt B s0 w) hcond hread]
    refine ⟨⟨st.p + 2, (st.bitIndex - 16) + (num : Int),
      (st.bitValue ||| (wordAt B s0 w <<< ((16 : Int) - st.bitIndex).toNat)) >>> num⟩,
      ?_, ?_⟩
    · congr 1
      congr 1
      rw [hv1]
      by_cases h15 : num ≤ 15
      · rw [if_pos h15]
        have hmask : BITMASKS num = 2 ^ num - 1 := by
          unfold BITMASKS
          rw [if_pos (by omega)]
        rw [hmask, Nat.and_pow_two_sub_one_eq_mod]
        unfold nextBitsVal
        exact bits_agree B s0 c num (w + 1) ((c + num + 15) / 16) (by omega) hWstar
      · rw [if_neg h15]
        have hmask : BITMASKS num = 0 := by
          unfold BITMASKS
          rw [if_neg (by omega)]
        rw [hmask, Nat.and_zero]
    · refine ⟨w + 1, ?_, by omega, by omega, ?_, ?_⟩
      · simp only []
        omega
      · simp only []
        rw [hbi]
        push_cast
        ring
      · simp only []
        rw [hv1, Nat.shiftRight_eq_div_pow, Nat.div_div_eq_div_mul, ← pow_add]
  · -- no refill
    have hcond : ¬(st.bitIndex + (num : Int) > 16) := by
      rw [hbi]
      push_cast
      omega
    rw [kwzReadBits_norefill B num st hcond]
    refine ⟨⟨st.p, st.bitIndex + (num : Int), st.bitValue >>> num⟩, ?_, ?_⟩
    · congr 1
      congr 1
      rw [hbv]
      by_cases h15 : num ≤ 15
      · rw [if_pos h15]
        have hmask : BITMASKS num = 2 ^ num - 1 := by
          unfold BITMASKS
          rw [if_pos (by omega)]
        rw [hmask, Nat.and_pow_two_sub_one_eq_mod]
        unfold nextBitsVal
        exact bits_agree B s0 c num w ((c + num + 15) / 16) (by omega) hWstar
      · rw [if_neg h15]
        have hmask : BITMASKS num = 0 := by
          unfold BITMASKS
          rw [if_neg (by omega)]
        rw [hmask, Nat.and_zero]
    · refine ⟨w, ?_, by omega, by omega, ?_, ?_⟩
      · simp only []
        omega
      · simp only []
        rw [hbi]
        push_cast
        ring
      · simp only []
        rw [hbv, Nat.shiftRight_eq_div_pow, Nat.div_div_eq_div_mul, ← pow_add]

/-- Expected values of a sequence of `readBits` calls starting `c` bits into
the stream: the next `n` bits for each width `n ≤ 15`, and `0` for a width-16
call (whose mask `BITMASKS[16]` is JS `undefined`). -/
def nextBitsList (B : Bytes) (s0 : Nat) : Nat → List Nat → List Nat
  | _, [] => []
  | c, n :: ns =>
    (if n ≤ 15 then nextBitsVal B s0 c n else 0) :: nextBitsList B s0 (c + n) ns

lemma kwzRunReads_inv (B : Bytes) (hB : ∀ b ∈ B, b < 256) (s0 : Nat) :
    ∀ (ns : List Nat) (c : Nat) (st : BitSt), BitInv B s0 c st →
      (∀ n ∈ ns, 1 ≤ n ∧ n ≤ 16) →
      s0 + 2 * ((c + ns.sum + 15) / 16) ≤ B.length →
      ∃ st', kwzRunReads B ns st = some (nextBitsList B s0 c ns, st') ∧
        BitInv B s0 (c + ns.sum) st'
  | [], c, st, hinv, _, _ => ⟨st, rfl, by simpa using hinv⟩
  | n :: ns, c, st, hinv, hns, hlen => by
    have hsum : (n :: ns).sum = n + ns.sum := List.sum_cons
    obtain ⟨st1, hread, hinv1⟩ := kwz_readBits_spec B hB s0 c n st hinv
      (hns n (by simp)).1 (hns n (by simp)).2
      (by
        have hd : (c + n + 15) / 16 ≤ (c + (n :: ns).sum + 15) / 16 :=
          Nat.div_le_div_right (by omega)
        omega)
    obtain ⟨st2, hrun, hinv2⟩ := kwzRunReads_inv B hB s0 ns (c + n) st1 hinv1
      (fun m hm => hns m (by simp [hm]))
      (by rw [hsum] at hlen; omega)
    refine ⟨st2, ?_, ?_⟩
    · simp only [kwzRunReads, hread, Option.bind_eq_bind, Option.some_bind, hrun,
        nextBitsList, Option.pure_def]
    · rw [hsum, ← Nat.add_assoc]
      exact hinv2

/-- **C4** (amended): from a bit-cursor reset at byte `s0`, a sequence of
`readBits` calls with widths in `[1, 16]` succeeds whenever the covered words
are in bounds, and returns, for each width `n ≤ 15`, exactly the next `n`
stream bits (LSB-first within little-endian 16-bit words, words in file
order) — a width-16 call instead returns `0` because `BITMASKS[16]` is
`undefined`, though it still consumes 16 bits; when the widths sum to a
multiple of 16, the bytes pulled from the stream equal exactly `sum / 8`:
no bit is skipped or read twice. -/
theorem kwz_readBits_correct (B : Bytes) (hB : ∀ b ∈ B, b < 256) (s0 : Nat)
    (ns : List Nat) (hns : ∀ n ∈ ns, 1 ≤ n ∧ n ≤ 16)
    (hlen : s0 + 2 * ((ns.sum + 15) / 16) ≤ B.length) :
    ∃ st', kwzRunReads B ns (bitReset s0) = some (nextBitsList B s0 0 ns, st') ∧
      (ns.sum % 16 = 0 → st'.p = s0 + ns.sum / 8) := by
  have hinv0 : BitInv B s0 0 (bitReset s0) :=
    ⟨0, by simp [bitReset], by omega, by omega, by simp [bitReset], by simp [bitReset, wordsVal]⟩
  obtain ⟨st', hrun, hinv⟩ := kwzRunReads_inv B hB s0 ns 0 (bitReset s0) hinv0 hns
    (by simpa using hlen)
  refine ⟨st', hrun, ?_⟩
  intro hmod
  obtain ⟨w, hp, hcw, hw15, _, _⟩ := hinv
  omega

/-- Witness for C4: reading widths 5, 11, 7, 9 (sum 32) from the byte stream
`34 12 78 56` returns exactly the successive bit groups of `0x56781234` and
leaves the byte pointer 4 bytes in. -/
theorem kwz_readBits_correct_witness :
    (∃ st', kwzRunReads [0x34, 0x12, 0x78, 0x56] [5, 11, 7, 9] (bitReset 0) =
        some (nextBitsList [0x34, 0x12, 0x78, 0x56] 0 0 [5, 11, 7, 9], st') ∧
      (([5, 11, 7, 9] : List Nat).sum % 16 = 0 →
        st'.p = 0 + ([5, 11, 7, 9] : List Nat).sum / 8)) ∧
    nextBitsList [0x34, 0x12, 0x78, 0x56] 0 0 [5, 11, 7, 9] = [20, 145, 120, 172] :=
  ⟨kwz_readBits_correct [0x34, 0x12, 0x78, 0x56] (by decide) 0 [5, 11, 7, 9]
    (by decide) (by decide), by decide⟩

/-- Counterexample for C4 as stated: `readBits(16)` does not return the next
16 bits — `BITMASKS[16]` is `undefined`, so the result is masked to 0 (here
on a stream whose next 16 bits are all ones), although 16 bits are consumed. -/
theorem kwz_readBits_16_counterexample :
    kwzReadBits [255, 255] 16 (bitReset 0) = some (0, ⟨2, 16, 0⟩) ∧
    nextBitsVal [255, 255] 0 0 16 = 65535 := by
  decide

/-! ## C3: the 38-byte sentinel frame -/

lemma kwzDecodeFrameCore_sentinel (f : KwzParsed) (i : Nat) (flag : Nat)
    (s : KwzSt) (hsz : f.frameLayerSizes.getD i (0, 0, 0) = (38, 38, 38)) :
    kwzDecodeFrameCore f i flag s =
      some ⟨s.layer0, s.layer1, s.layer2, some (i : Int)⟩ := by
  simp only [kwzDecodeFrameCore, hsz]
  simp [List.foldlM, kwzLayerSize]

/-- **C3** (amended): a KWZ frame whose three stored layer sizes are all the
38-byte sentinel leaves all three layer buffers exactly as they were —
whatever they previously held — provided the call does not first recurse
into ancestor frames (the frame is frame 0, or the decoder's last decoded
frame is `i - 1`). -/
theorem kwz_sentinel_frame_unchanged (f : KwzParsed) (i : Nat) (s : KwzSt)
    (hi : i < f.frameCount)
    (hsz : f.frameLayerSizes.getD i (0, 0, 0) = (38, 38, 38))
    (hnorec : i = 0 ∨ s.prevFrameIndex = some ((i : Int) - 1)) :
    kwzDecodeFrame f i 0x7 false s =
      some ⟨s.layer0, s.layer1, s.layer2, some (i : Int)⟩ := by
  match i, hnorec with
  | 0, _ =>
    show (if 0 < f.frameCount then kwzDecodeFrameCore f 0 0x7 s else none) = _
    rw [if_pos hi]
    exact kwzDecodeFrameCore_sentinel f 0 0x7 s hsz
  | i + 1, hnorec =>
    have hprev : s.prevFrameIndex = some ((i : Nat) : Int) := by
      rcases hnorec with h | h
      · exact absurd h (by omega)
      · rw [h]
        congr 1
        push_cast
        ring
    show (if i + 1 < f.frameCount then
        if s.prevFrameIndex ≠ some ((i : Int)) then _ else
          kwzDecodeFrameCore f (i + 1) 0x7 s
      else none) = _
    rw [if_pos hi, if_neg (by rw [hprev]; simp)]
    exact kwzDecodeFrameCore_sentinel f (i + 1) 0x7 s hsz

/-- Witness for C3: on a one-frame KWZ note whose stored layer sizes are
`(38, 38, 38)`, decoding frame 0 over a garbage prior state returns the
garbage buffers untouched. -/
theorem kwz_sentinel_frame_unchanged_witness :
    kwzDecodeFrame kwzWitParsed 0 0x7 false kwzWitSt =
      some ⟨kwzWitSt.layer0, kwzWitSt.layer1, kwzWitSt.layer2, some (0 : Int)⟩ :=
  kwz_sentinel_frame_unchanged kwzWitParsed 0 kwzWitSt (by decide) (by decide)
    (Or.inl rfl)

/-! ## C1, C2: PPM frame decode equivalences -/

lemma ppmDecodeFrameCore_fields (f : PpmParsed) (i : Nat) (s : PpmSt)
    (u : PpmSt) (h : ppmDecodeFrameCore f i s = some u) :
    u.prevDecodedFrame = some (i : Int) ∧ u.prevLayer0 = u.layer0 ∧
      u.prevLayer1 = u.layer1 := by
  unfold ppmDecodeFrameCore at h
  rcases Option.map_eq_some'.mp h with ⟨d, _, hu⟩
  rw [← hu]
  exact ⟨rfl, rfl, rfl⟩

lemma ppmDecodeFrame_fields (f : PpmParsed) (i : Nat) (s : PpmSt) (u : PpmSt)
    (h : ppmDecodeFrame f i s = some u) :
    u.prevDecodedFrame = some (i : Int) ∧ u.prevLayer0 = u.layer0 ∧
      u.prevLayer1 = u.layer1 := by
  match i with
  | 0 =>
    unfold ppmDecodeFrame at h
    split_ifs at h
    · simp only [Option.bind_eq_bind] at h
      rcases Option.bind_eq_some.mp h with ⟨b, _, h⟩
      exact ppmDecodeFrameCore_fields f 0 s u h
    · exact ppmDecodeFrameCore_fields f 0 s u h
  | i + 1 =>
    unfold ppmDecodeFrame at h
    split_ifs at h
    · simp only [Option.bind_eq_bind] at h
      rcases Option.bind_eq_some.mp h with ⟨b, _, h⟩
      by_cases hb : b = 0
      · rw [if_pos hb] at h
        rcases Option.bind_eq_some.mp h with ⟨s', _, h⟩
        exact ppmDecodeFrameCore_fields f (i + 1) s' u h
      · rw [if_neg hb] at h
        exact ppmDecodeFrameCore_fields f (i + 1) s u h
    · exact ppmDecodeFrameCore_fields f (i + 1) s u h

lemma ppmIsNewFrame_of_coreData (f : PpmParsed) (i : Nat) (d : PpmFrameData)
    (h : ppmDecodeFrameCoreData f i = some d) :
    ppmIsNewFrame f i = some d.isNewFrame := by
  unfold ppmDecodeFrameCoreData at h
  simp only [Option.bind_eq_bind] at h
  rcases Option.bind_eq_some.mp h with ⟨header, hh, h⟩
  unfold ppmIsNewFrame
  simp only [Option.bind_eq_bind, hh, Option.some_bind, Option.pure_def]
  split_ifs at h
  · rcases Option.bind_eq_some.mp h with ⟨tx, _, h⟩
    rcases Option.bind_eq_some.mp h with ⟨ty, _, h⟩
    simp only [Option.pure_def, Option.some_bind] at h
    rcases Option.bind_eq_some.mp h with ⟨e0, _, h⟩
    rcases Option.bind_eq_some.mp h with ⟨e1, _, h⟩
    rcases Option.bind_eq_some.mp h with ⟨l0, _, h⟩
    rcases Option.bind_eq_some.mp h with ⟨l1, _, h⟩
    simp only [Option.pure_def, Option.some.injEq] at h
    rw [← h]
  · simp only [Option.pure_def, Option.some_bind] at h
    rcases Option.bind_eq_some.mp h with ⟨e0, _, h⟩
    rcases Option.bind_eq_some.mp h with ⟨e1, _, h⟩
    rcases Option.bind_eq_some.mp h with ⟨l0, _, h⟩
    rcases Option.bind_eq_some.mp h with ⟨l1, _, h⟩
    simp only [Option.pure_def, Option.some.injEq] at h
    rw [← h]

lemma ppm_decode_indep (f : PpmParsed) : ∀ (i : Nat) (s t : PpmSt),
    ppmHasKeyAncestor f i = true →
    (∀ j : Nat, j ≤ i → s.prevDecodedFrame ≠ some ((j : Int) - 1)) →
    (∀ j : Nat, j ≤ i → t.prevDecodedFrame ≠ some ((j : Int) - 1)) →
    ppmDecodeFrame f i s = ppmDecodeFrame f i t
  | 0, s, t, hkey, hs, ht => by
    unfold ppmDecodeFrame
    by_cases hc : 0 < f.frameCount
    · rw [if_pos hc, if_pos hc,
        if_pos (show s.prevDecodedFrame ≠ some (-1) by
          have h0 := hs 0 (by omega)
          simpa using h0),
        if_pos (show t.prevDecodedFrame ≠ some (-1) by
          have h0 := ht 0 (by omega)
          simpa using h0)]
      cases hb : ppmIsNewFrame f 0 with
      | none => simp [Option.bind_eq_bind, hb]
      | some b =>
        simp only [Option.bind_eq_bind, hb, Option.some_bind]
        have hbne : b ≠ 0 := by
          unfold ppmHasKeyAncestor at hkey
          rw [hb] at hkey
          simpa using hkey
        unfold ppmDecodeFrameCore
        cases hd : ppmDecodeFrameCoreData f 0 with
        | none => simp
        | some d =>
          have hdb : d.isNewFrame = b := by
            have h2 := ppmIsNewFrame_of_coreData f 0 d hd
            rw [hb] at h2
            exact (Option.some.inj h2).symm
          simp only [Option.map_some']
          simp only [if_neg (show ¬(d.isNewFrame = 0) from by rw [hdb]; exact hbne)]
    · rw [if_neg hc, if_neg hc]
  | i + 1, s, t, hkey, hs, ht => by
    unfold ppmDecodeFrame
    by_cases hc : i + 1 < f.frameCount
    · rw [if_pos hc, if_pos hc,
        if_pos (show s.prevDecodedFrame ≠ some ((i : Int)) by
          have h0 := hs (i + 1) (by omega)
          push_cast at h0
          simpa using h0),
        if_pos (show t.prevDecodedFrame ≠ some ((i : Int)) by
          have h0 := ht (i + 1) (by omega)
          push_cast at h0
          simpa using h0)]
      cases hb : ppmIsNewFrame f (i + 1) with
      | none => simp [Option.bind_eq_bind, hb]
      | some b =>
        simp only [Option.bind_eq_bind, hb, Option.some_bind]
        by_cases hbz : b = 0
        · rw [if_pos hbz, if_pos hbz]
          have hkey' : ppmHasKeyAncestor f i = true := by
            unfold ppmHasKeyAncestor at hkey
            rw [hb] at hkey
            simpa [hbz] using hkey
          have hrec := ppm_decode_indep f i s t hkey'
            (fun j hj => hs j (by omega)) (fun j hj => ht j (by omega))
          rw [hrec]
        · rw [if_neg hbz, if_neg hbz]
          unfold ppmDecodeFrameCore
          cases hd : ppmDecodeFrameCoreData f (i + 1) with
          | none => simp
          | some d =>
            have hdb : d.isNewFrame = b := by
              have h2 := ppmIsNewFrame_of_coreData f (i + 1) d hd
              rw [hb] at h2
              exact (Option.some.inj h2).symm
            simp only [Option.map_some']
            simp only [if_neg (show ¬(d.isNewFrame = 0) from by rw [hdb]; exact hbz)]
    · rw [if_neg hc, if_neg hc]

/-- The result of the first `decodeFrame(0)` call on the witness note. -/
def ppmWitS1 : PpmSt := (ppmDecodeFrame ppmWitParsed 0 ppmFresh).getD ppmFresh

/-- **C1** (amended, PPM): whenever decoding frames `0..i` in strict
forward sequence on a fresh PPM decoder succeeds, a single
`decodeFrame(i)` call on a freshly constructed decoder — which rebuilds
ancestors through the recursive diff-chain — produces exactly the same
decoder state, layer buffers included. (The KWZ decoder does not satisfy
this: see the diff-mask narrowing counterexample.) -/
theorem ppm_seq_matches_fresh_decode (f : PpmParsed) (i : Nat)
    (h : (ppmSeqDecode f i).isSome) :
    ppmDecodeFrame f i ppmFresh = ppmSeqDecode f i := by
  induction i with
  | zero =>
    unfold ppmSeqDecode
    rw [show List.range (0 + 1) = [0] from by decide]
    simp only [List.foldlM, Option.bind_eq_bind, Option.pure_def]
    cases hx : ppmDecodeFrame f 0 ppmFresh <;> simp [hx]
  | succ i ih =>
    have hseq : ppmSeqDecode f (i + 1) =
        (ppmSeqDecode f i).bind (fun s => ppmDecodeFrame f (i + 1) s) := by
      unfold ppmSeqDecode
      rw [List.range_succ, List.foldlM_append]
      congr 1
      funext s
      simp only [List.foldlM, Option.bind_eq_bind, Option.pure_def]
      cases hx : ppmDecodeFrame f (i + 1) s <;> simp [hx]
    rw [hseq] at h ⊢
    have hi : (ppmSeqDecode f i).isSome := by
      cases hs : ppmSeqDecode f i
      · rw [hs] at h
        simp at h
      · simp
    obtain ⟨s, hs⟩ := Option.isSome_iff_exists.mp hi
    rw [hs] at h ⊢
    simp only [Option.some_bind] at h ⊢
    have ihe : ppmDecodeFrame f i ppmFresh = some s := by
      rw [ih hi, hs]
    obtain ⟨hsp, hsl0, hsl1⟩ := ppmDecodeFrame_fields f i ppmFresh s ihe
    have hR : ppmDecodeFrame f (i + 1) s =
        if i + 1 < f.frameCount then ppmDecodeFrameCore f (i + 1) s else none := by
      show (if i + 1 < f.frameCount then
          if s.prevDecodedFrame ≠ some ((i : Int)) then _ else
            ppmDecodeFrameCore f (i + 1) s
        else none) = _
      by_cases hc : i + 1 < f.frameCount
      · rw [if_pos hc, if_pos hc, if_neg (by rw [hsp]; simp)]
      · rw [if_neg hc, if_neg hc]
    by_cases hc : i + 1 < f.frameCount
    · have hcd : ∃ d, ppmDecodeFrameCoreData f (i + 1) = some d := by
        rw [hR, if_pos hc] at h
        unfold ppmDecodeFrameCore at h
        rcases Option.isSome_iff_exists.mp h with ⟨u, hu⟩
        rcases Option.map_eq_some'.mp hu with ⟨d, hd, _⟩
        exact ⟨d, hd⟩
      obtain ⟨d, hd⟩ := hcd
      have hb := ppmIsNewFrame_of_coreData f (i + 1) d hd
      show (if i + 1 < f.frameCount then
          if ppmFresh.prevDecodedFrame ≠ some ((i : Int)) then _ else
            ppmDecodeFrameCore f (i + 1) ppmFresh
        else none) = _
      rw [if_pos hc, if_pos (show ppmFresh.prevDecodedFrame ≠ some ((i : Int)) by
        simp [ppmFresh])]
      simp only [Option.bind_eq_bind, hb, Option.some_bind]
      by_cases hnew : d.isNewFrame = 0
      · rw [if_pos hnew, ihe]
        simp only [Option.some_bind]
        rw [hR, if_pos hc]
      · rw [if_neg hnew]
        rw [hR, if_pos hc]
        unfold ppmDecodeFrameCore
        rw [hd]
        simp only [Option.map_some']
        simp only [if_neg (show ¬(d.isNewFrame = 0) from hnew)]
    · show (if i + 1 < f.frameCount then
          if ppmFresh.prevDecodedFrame ≠ some ((i : Int)) then _ else
            ppmDecodeFrameCore f (i + 1) ppmFresh
        else none) = _
      rw [if_neg hc, hR, if_neg hc]

set_option maxRecDepth 40000 in
/-- Witness for C1: on a one-keyframe PPM note, the single fresh
`decodeFrame(0)` call and the sequential decode of `[0]` agree. -/
theorem ppm_seq_matches_fresh_decode_witness :
    ppmDecodeFrame ppmWitParsed 0 ppmFresh = ppmSeqDecode ppmWitParsed 0 ∧
    (ppmSeqDecode ppmWitParsed 0).isSome :=
  ⟨ppm_seq_matches_fresh_decode ppmWitParsed 0 (by decide), by decide⟩

/-- **C2** (amended, PPM): if frame `i` has a keyframe ancestor (itself, or
a keyframe at the start of its diff chain) and the decoder's previous
decoded frame does not sit inside the chain, then `decodeFrame(i)`
followed by `decodeFrame(i)` again returns the very same state: the
re-decode reproduces the layer buffers exactly. (Without a keyframe
ancestor the re-decode can differ: frame 0 is then re-diffed against the
buffers the first call left behind.) -/
theorem ppm_repeat_decode_idempotent (f : PpmParsed) (i : Nat) (s s1 : PpmSt)
    (hkey : ppmHasKeyAncestor f i = true)
    (hprev : ∀ j : Nat, j ≤ i → s.prevDecodedFrame ≠ some ((j : Int) - 1))
    (h1 : ppmDecodeFrame f i s = some s1) :
    ∃ s2, ppmDecodeFrame f i s1 = some s2 ∧
      s2.layer0 = s1.layer0 ∧ s2.layer1 = s1.layer1 := by
  have hs1p : s1.prevDecodedFrame = some (i : Int) :=
    (ppmDecodeFrame_fields f i s s1 h1).1
  have hcond1 : ∀ j : Nat, j ≤ i → s1.prevDecodedFrame ≠ some ((j : Int) - 1) := by
    intro j hj hc
    rw [hs1p] at hc
    have : (i : Int) = (j : Int) - 1 := Option.some.inj hc
    omega
  have hind := ppm_decode_indep f i s s1 hkey hprev hcond1
  rw [← hind, h1]
  exact ⟨s1, rfl, rfl, rfl⟩

set_option maxRecDepth 40000 in
/-- Witness for C2: decoding frame 0 of a one-keyframe PPM note twice in a
row returns identical states. -/
theorem ppm_repeat_decode_idempotent_witness :
    ∃ s2, ppmDecodeFrame ppmWitParsed 0 ppmWitS1 = some s2 ∧
      s2.layer0 = ppmWitS1.layer0 ∧ s2.layer1 = ppmWitS1.layer1 :=
  ppm_repeat_decode_idempotent ppmWitParsed 0 ppmFresh ppmWitS1 (by decide)
    (fun j hj => by simp [ppmFresh]) (by rfl)

/-- Counterexample for C1 as stated: on a 3-frame KWZ note, decoding frames
`0, 1, 2` in sequence lights pixel 0 of layer A, but a fresh recursive
`decodeFrame(2)` leaves it blank — the `diffingFlag & ~getFrameDiffingFlag`
narrowing drops the ancestor layers from the recursive path. -/
theorem kwz_seq_vs_fresh_counterexample : kwzC1Run = some (1, 0) := by
  decide!

/-- Counterexample for C2 as stated: frame 0 of `ppmCexBytes` is a
non-keyframe, so its decode XORs against the current buffers; decoding it
twice in a row gives pixel 0 of layer 1 first as 1 and then as 0. -/
theorem ppm_repeat_decode_counterexample : ppmC2Run = some (1, 0) := by
  decide!

/-- Counterexample for C3 as stated: frame 2 of `kwzCexBytes3` stores the
38-byte sentinel for all three layers, yet calling `decodeFrame(2)` after
frame 0 changes layer A pixel 0 from 1 to 0 — the call first recurses into
frame 1, which overwrites the buffers before the sentinel skip is reached. -/
theorem kwz_sentinel_frame_counterexample :
    kwzC3Run = some (1, 0) ∧ kwzC3Sizes = some (38, 38, 38) := by
  constructor
  · decide!
  · decide!
